import Mathlib

/-!
Shallow embedding of the CUDA path tracer core
(`src/intersections.h`, `src/pathtrace.cu`) of
ZijingPeng/Project3-CUDA-Path-Tracer, together with proofs settling the
frozen claims about it.

Modelling conventions:
* `float`/`double` scalars are embedded as exact reals (`ℝ`); machine
  unsigned 32-bit integers as `ℕ` reduced `% 2^32`; C `int` counters as `ℤ`.
* CUDA kernels operating one thread per path are embedded as pure
  functions of the per-path data; output parameters become components of
  a returned tuple.
* The external BSDF collaborator `scatterRay` (from `interactions.h`,
  not part of the analysed sources) is a universally quantified function
  parameter, so every theorem holds for an arbitrary scatter routine.
* Library routines the code calls (`glm`, `thrust`) are embedded from
  their documented reference semantics, noted at each definition.
-/

open scoped Classical

noncomputable section

/-- 3-component vector of reals, embedding `glm::vec3`. -/
@[ext] structure Vec3 where
  x : ℝ
  y : ℝ
  z : ℝ

namespace Vec3

def add (a b : Vec3) : Vec3 := ⟨a.x + b.x, a.y + b.y, a.z + b.z⟩

def sub (a b : Vec3) : Vec3 := ⟨a.x - b.x, a.y - b.y, a.z - b.z⟩

def neg (a : Vec3) : Vec3 := ⟨-a.x, -a.y, -a.z⟩

/-- Component-wise product, embedding `glm` `vec3 * vec3`. -/
def mul (a b : Vec3) : Vec3 := ⟨a.x * b.x, a.y * b.y, a.z * b.z⟩

/-- Scalar multiple, embedding `float * vec3`. -/
def smul (r : ℝ) (a : Vec3) : Vec3 := ⟨r * a.x, r * a.y, r * a.z⟩

instance : Sub Vec3 := ⟨Vec3.sub⟩
instance : Neg Vec3 := ⟨Vec3.neg⟩
instance : Mul Vec3 := ⟨Vec3.mul⟩
instance : SMul ℝ Vec3 := ⟨Vec3.smul⟩

theorem add_assoc_raw (a b c : Vec3) :
    Vec3.add (Vec3.add a b) c = Vec3.add a (Vec3.add b c) := by
  unfold Vec3.add
  ext <;> dsimp <;> ring

theorem zero_add_raw (a : Vec3) : Vec3.add ⟨0, 0, 0⟩ a = a := by
  unfold Vec3.add
  ext <;> dsimp <;> ring

theorem add_zero_raw (a : Vec3) : Vec3.add a ⟨0, 0, 0⟩ = a := by
  unfold Vec3.add
  ext <;> dsimp <;> ring

theorem add_comm_raw (a b : Vec3) : Vec3.add a b = Vec3.add b a := by
  unfold Vec3.add
  ext <;> dsimp <;> ring

instance : Add Vec3 := ⟨Vec3.add⟩
instance : Zero Vec3 := ⟨⟨0, 0, 0⟩⟩

instance : AddCommMonoid Vec3 where
  add := Vec3.add
  zero := ⟨0, 0, 0⟩
  add_assoc := add_assoc_raw
  zero_add := zero_add_raw
  add_zero := add_zero_raw
  add_comm := add_comm_raw
  nsmul := nsmulRec
  nsmul_zero := fun _ => rfl
  nsmul_succ := fun _ _ => rfl

@[simp] theorem add_def (a b : Vec3) :
    a + b = ⟨a.x + b.x, a.y + b.y, a.z + b.z⟩ := rfl

@[simp] theorem sub_def (a b : Vec3) :
    a - b = ⟨a.x - b.x, a.y - b.y, a.z - b.z⟩ := rfl

@[simp] theorem neg_def (a : Vec3) : -a = ⟨-a.x, -a.y, -a.z⟩ := rfl

@[simp] theorem mul_def (a b : Vec3) :
    a * b = ⟨a.x * b.x, a.y * b.y, a.z * b.z⟩ := rfl

@[simp] theorem smul_def (r : ℝ) (a : Vec3) :
    r • a = ⟨r * a.x, r * a.y, r * a.z⟩ := rfl

@[simp] theorem zero_def : (0 : Vec3) = ⟨0, 0, 0⟩ := rfl

/-- `glm::dot`. -/
def dot (a b : Vec3) : ℝ := a.x * b.x + a.y * b.y + a.z * b.z

/-- `glm::cross`. -/
def cross (a b : Vec3) : Vec3 :=
  ⟨a.y * b.z - a.z * b.y, a.z * b.x - a.x * b.z, a.x * b.y - a.y * b.x⟩

/-- `glm::length`. -/
def length (a : Vec3) : ℝ := Real.sqrt (dot a a)

/-- `glm::normalize` (`v / length v`; division by a zero length is outside
the faithful domain and is guarded by hypotheses where it matters). -/
def normalize (a : Vec3) : Vec3 :=
  ⟨a.x / length a, a.y / length a, a.z / length a⟩

/-- Component access matching `glm` `operator[]`: 0 ↦ x, 1 ↦ y, _ ↦ z. -/
def nth (a : Vec3) (i : ℕ) : ℝ :=
  if i = 0 then a.x else if i = 1 then a.y else a.z

@[simp] theorem nth_zero (a : Vec3) : a.nth 0 = a.x := rfl

@[simp] theorem nth_one (a : Vec3) : a.nth 1 = a.y := rfl

@[simp] theorem nth_two (a : Vec3) : a.nth 2 = a.z := rfl

/-- The vector with value `s` at component `i` and `0` elsewhere: the
result of `glm::vec3 n;` (zero-initialised) followed by `n[i] = s`. -/
def axisSigned (i : ℕ) (s : ℝ) : Vec3 :=
  if i = 0 then ⟨s, 0, 0⟩ else if i = 1 then ⟨0, s, 0⟩ else ⟨0, 0, s⟩

end Vec3

/-- 4×4 matrix of reals (`glm::mat4`), as a function of (row, column). -/
def Mat4 : Type := Fin 4 → Fin 4 → ℝ

/-- Embedding of `multiplyMV(m, glm::vec4(v, w))`: multiply the matrix by
the homogeneous extension of `v` with last coordinate `w` and clip the
result back to a `Vec3`. -/
def multiplyMV (m : Mat4) (v : Vec3) (w : ℝ) : Vec3 :=
  ⟨m 0 0 * v.x + m 0 1 * v.y + m 0 2 * v.z + m 0 3 * w,
   m 1 0 * v.x + m 1 1 * v.y + m 1 2 * v.z + m 1 3 * w,
   m 2 0 * v.x + m 2 1 * v.y + m 2 2 * v.z + m 2 3 * w⟩

/-- The identity matrix, used for concrete witnesses. -/
def idMat : Mat4 := fun i j => if i = j then 1 else 0

@[simp] theorem multiplyMV_id (v : Vec3) (w : ℝ) : multiplyMV idMat v w = v := by
  simp [multiplyMV, idMat]

/-- `Ray` from `sceneStructs.h`: origin, direction and a motion-blur time. -/
structure Ray where
  origin : Vec3
  direction : Vec3
  time : ℝ

/-- Geometry type tag (`enum GeomType`). -/
inductive GeomType where
  | CUBE
  | SPHERE
  | MESH

/-- `Geom` record from `sceneStructs.h`, with the fields the analysed code
reads: type tag, material id, motion fields, the three transforms, the
triangle index range and the object-space bounding corners of a mesh. -/
structure Geom where
  type : GeomType
  materialid : ℤ
  moving : Bool
  translation : Vec3
  target : Vec3
  transform : Mat4
  inverseTransform : Mat4
  invTranspose : Mat4
  startIndex : ℤ
  endIndex : ℤ
  leftBottom : Vec3
  rightTop : Vec3

/-- `Triangle`: three vertex positions and three vertex normals. -/
structure Triangle where
  p1 : Vec3
  p2 : Vec3
  p3 : Vec3
  n1 : Vec3
  n2 : Vec3
  n3 : Vec3

/-- `Material`, restricted to the fields the analysed shading code reads. -/
structure Material where
  color : Vec3
  emittance : ℝ

/-- `PathSegment`: one light-transport path in flight. -/
structure PathSegment where
  ray : Ray
  color : Vec3
  pixelIndex : ℤ
  remainingBounces : ℤ

/-- `ShadeableIntersection`: the per-path intersection record. -/
structure ShadeableIntersection where
  t : ℝ
  materialId : ℤ
  surfaceNormal : Vec3
  point : Vec3

/-- `Camera`, restricted to the fields ray generation reads. -/
structure Camera where
  resolutionX : ℤ
  resolutionY : ℤ
  position : Vec3
  view : Vec3
  up : Vec3
  right : Vec3
  pixelLengthX : ℝ
  pixelLengthY : ℝ

/-- `FLT_MAX`, the largest finite single-precision float. -/
def fltMax : ℝ := 2 ^ 128 - 2 ^ 104

/-- The literal `1e38f` used to initialise the slab bounds. -/
def bigF : ℝ := 10 ^ 38

/-- `utilhash` from `intersections.h`: a 32-bit integer mixing hash.
Every intermediate is reduced `% 2^32`, modelling `unsigned int`
arithmetic. -/
def utilhash (a0 : ℕ) : ℕ :=
  let m := 2 ^ 32
  let a := a0 % m
  let a := ((a + 0x7ed55d16) + (a <<< 12)) % m
  let a := ((a ^^^ 0xc761c23c) ^^^ (a >>> 19)) % m
  let a := ((a + 0x165667b1) + (a <<< 5)) % m
  let a := ((a + 0xd3a2646c) ^^^ (a <<< 9)) % m
  let a := ((a + 0xfd7046c5) + (a <<< 3)) % m
  let a := ((a ^^^ 0xb55a4f09) ^^^ (a >>> 16)) % m
  a

/-- `makeSeededRandomEngine` from `pathtrace.cu`: the 32-bit seed value
`utilhash((1 << 31) | (depth << 22) | iter) ^ utilhash(index)` handed to
`thrust::default_random_engine`.  The engine is a deterministic function
of this seed, so the seed value stands for the engine/sample stream. -/
def makeSeededRandomEngine (iter index depth : ℕ) : ℕ :=
  (utilhash (((2 ^ 31 : ℕ) ||| ((depth <<< 22) % 2 ^ 32) ||| iter) % 2 ^ 32)
    ^^^ utilhash (index % 2 ^ 32)) % 2 ^ 32

/-- `getPointOnRay`: point at parameter `t`, pulled back by `.0001` so it
does not sit exactly on the surface being hit. -/
def getPointOnRay (r : Ray) (t : ℝ) : Vec3 :=
  r.origin + (t - 0.0001) • Vec3.normalize r.direction

/-- State threaded through the per-axis loop of `boxIntersectionTest`:
running entry/exit parameters and their candidate normals. -/
structure SlabState where
  tmin : ℝ
  tmax : ℝ
  tmin_n : Vec3
  tmax_n : Vec3

/-- Per-axis slab parameter at the `-0.5` face: `(-0.5 - q.origin[i]) / q.direction[i]`. -/
def slabT1 (q : Ray) (i : ℕ) : ℝ := (-(1/2) - q.origin.nth i) / q.direction.nth i

/-- Per-axis slab parameter at the `+0.5` face. -/
def slabT2 (q : Ray) (i : ℕ) : ℝ := ((1/2) - q.origin.nth i) / q.direction.nth i

/-- `ta = glm::min(t1, t2)`, the per-axis entry parameter. -/
def slabTa (q : Ray) (i : ℕ) : ℝ := min (slabT1 q i) (slabT2 q i)

/-- `tb = glm::max(t1, t2)`, the per-axis exit parameter. -/
def slabTb (q : Ray) (i : ℕ) : ℝ := max (slabT1 q i) (slabT2 q i)

/-- The candidate entry-normal sign for axis `i`: `t2 < t1 ? +1 : -1`. -/
def slabSign (q : Ray) (i : ℕ) : ℝ := if slabT2 q i < slabT1 q i then 1 else -1

/-- One iteration of the `for (xyz...)` loop body of `boxIntersectionTest`. -/
def slabStep (q : Ray) (i : ℕ) (s : SlabState) : SlabState :=
  let ta := slabTa q i
  let tb := slabTb q i
  let s1 :=
    if 0 < ta ∧ s.tmin < ta then
      { s with tmin := ta, tmin_n := Vec3.axisSigned i (slabSign q i) }
    else s
  if tb < s1.tmax then
    { s1 with tmax := tb, tmax_n := Vec3.axisSigned i (-(slabSign q i)) }
  else s1

/-- The object-space ray `q` built at the top of `boxIntersectionTest`,
including motion compensation for moving geometry. -/
def boxObjectRay (box : Geom) (r : Ray) : Ray :=
  let ro := if box.moving then r.origin - r.time • (box.target - box.translation) else r.origin
  { origin := multiplyMV box.inverseTransform ro 1
    direction := Vec3.normalize (multiplyMV box.inverseTransform r.direction 0)
    time := r.time }

/-- The slab loop of `boxIntersectionTest` over the three axes, starting
from `tmin = -1e38`, `tmax = 1e38`. -/
def boxSlab (q : Ray) : SlabState :=
  slabStep q 2 (slabStep q 1 (slabStep q 0 ⟨-bigF, bigF, 0, 0⟩))

/-- `boxIntersectionTest` from `intersections.h`.  Returns the tuple
`(t, intersectionPoint, normal)`; on a miss the C function returns `-1`
leaving the output parameters unwritten, modelled by zero vectors (the
caller reads them only when `t > 0`). -/
def boxIntersectionTest (box : Geom) (r : Ray) : ℝ × Vec3 × Vec3 :=
  let q := boxObjectRay box r
  let s := boxSlab q
  if s.tmin ≤ s.tmax ∧ 0 < s.tmax then
    let tAcc := if s.tmin ≤ 0 then s.tmax else s.tmin
    let nAcc := if s.tmin ≤ 0 then s.tmax_n else s.tmin_n
    let ip0 := multiplyMV box.transform (getPointOnRay q tAcc) 1
    let ip := if box.moving then ip0 + r.time • (box.target - box.translation) else ip0
    (Vec3.length (r.origin - ip), ip, Vec3.normalize (multiplyMV box.invTranspose nAcc 0))
  else (-1, 0, 0)

/-- Spec-side definition (from the claim's words): the slab test's entry
parameter, the largest per-axis entry. -/
def slabEntry (q : Ray) : ℝ := max (max (slabTa q 0) (slabTa q 1)) (slabTa q 2)

/-- Spec-side definition (from the claim's words): the slab test's exit
parameter, the smallest per-axis exit. -/
def slabExit (q : Ray) : ℝ := min (min (slabTb q 0) (slabTb q 1)) (slabTb q 2)

end

/-- IEEE-754-style scalar for the slab division edge cases that exact real
arithmetic cannot express: a finite rational, a signed infinity, or NaN. -/
inductive FVal where
  | fin (q : ℚ)
  | pinf
  | ninf
  | nan
deriving DecidableEq

namespace FVal

/-- IEEE division for a finite numerator and denominator: division by
zero yields a signed infinity, `0/0` yields NaN. -/
def fdiv (a b : ℚ) : FVal :=
  if b = 0 then (if a = 0 then nan else if 0 < a then pinf else ninf)
  else fin (a / b)

/-- IEEE `<` on these values: every comparison involving NaN is false. -/
def flt : FVal → FVal → Bool
  | nan, _ => false
  | _, nan => false
  | ninf, ninf => false
  | ninf, _ => true
  | _, ninf => false
  | pinf, _ => false
  | fin _, pinf => true
  | fin a, fin b => decide (a < b)

/-- `glm::min(x, y) = y < x ? y : x`. -/
def fmin (x y : FVal) : FVal := if flt y x then y else x

/-- `glm::max(x, y) = x < y ? y : x`. -/
def fmax (x y : FVal) : FVal := if flt x y then y else x

theorem flt_nan_left (x : FVal) : flt nan x = false := by cases x <;> rfl

theorem flt_nan_right (x : FVal) : flt x nan = false := by cases x <;> rfl

/-- One axis of the slab loop in IEEE semantics, tracking only the
`(tmin, tmax)` pair (the normals change under exactly the same guards).
`o`, `d` are the per-axis origin and direction components. -/
def fSlabStep (o d : ℚ) (s : FVal × FVal) : FVal × FVal :=
  let t1 := fdiv (-(1/2) - o) d
  let t2 := fdiv ((1/2) - o) d
  let ta := fmin t1 t2
  let tb := fmax t1 t2
  let s1 := if (flt (fin 0) ta && flt s.1 ta) then (ta, s.2) else s
  if flt tb s1.2 then (s1.1, tb) else s1

end FVal

noncomputable section

theorem bigF_pos : (0 : ℝ) < bigF := by norm_num [bigF]

theorem slabStep_tmax (q : Ray) (i : ℕ) (s : SlabState) :
    (slabStep q i s).tmax = min s.tmax (slabTb q i) := by
  unfold slabStep
  dsimp only
  split_ifs <;> simp_all [min_def] <;> split_ifs <;> linarith

theorem slabStep_tmin (q : Ray) (i : ℕ) (s : SlabState) :
    (slabStep q i s).tmin =
      if 0 < slabTa q i then max s.tmin (slabTa q i) else s.tmin := by
  unfold slabStep
  dsimp only
  split_ifs <;> simp_all [max_def] <;> split_ifs <;> linarith

theorem slabStep_tmax_n (q : Ray) (i : ℕ) (s : SlabState) :
    (slabStep q i s).tmax_n =
      if slabTb q i < s.tmax then Vec3.axisSigned i (-(slabSign q i)) else s.tmax_n := by
  unfold slabStep
  dsimp only
  split_ifs <;> simp_all

theorem slabStep_tmin_n (q : Ray) (i : ℕ) (s : SlabState) :
    (slabStep q i s).tmin_n =
      if 0 < slabTa q i ∧ s.tmin < slabTa q i then Vec3.axisSigned i (slabSign q i)
      else s.tmin_n := by
  unfold slabStep
  dsimp only
  split_ifs <;> simp_all

theorem boxSlab_tmax (q : Ray) (h0 : slabTb q 0 < bigF) :
    (boxSlab q).tmax = slabExit q := by
  unfold boxSlab slabExit
  rw [slabStep_tmax, slabStep_tmax, slabStep_tmax]
  simp only [min_def]
  split_ifs <;> linarith

theorem boxSlab_tmin (q : Ray) :
    (boxSlab q).tmin = if 0 < slabEntry q then slabEntry q else -bigF := by
  have hb := bigF_pos
  unfold boxSlab slabEntry
  rw [slabStep_tmin, slabStep_tmin, slabStep_tmin]
  simp only [max_def]
  split_ifs <;> linarith

theorem boxSlab_exit_normal (q : Ray) (h0 : slabTb q 0 < bigF) :
    ∃ i, i < 3 ∧ slabTb q i = slabExit q ∧
      (boxSlab q).tmax_n = Vec3.axisSigned i (-(slabSign q i)) := by
  have s0max : (slabStep q 0 ⟨-bigF, bigF, 0, 0⟩).tmax = slabTb q 0 := by
    rw [slabStep_tmax]
    exact min_eq_right h0.le
  have s0n : (slabStep q 0 ⟨-bigF, bigF, 0, 0⟩).tmax_n =
      Vec3.axisSigned 0 (-(slabSign q 0)) := by
    rw [slabStep_tmax_n]
    exact if_pos h0
  have s1max : (slabStep q 1 (slabStep q 0 ⟨-bigF, bigF, 0, 0⟩)).tmax =
      min (slabTb q 0) (slabTb q 1) := by
    rw [slabStep_tmax, s0max]
  have s1n : (slabStep q 1 (slabStep q 0 ⟨-bigF, bigF, 0, 0⟩)).tmax_n =
      if slabTb q 1 < slabTb q 0 then Vec3.axisSigned 1 (-(slabSign q 1))
      else Vec3.axisSigned 0 (-(slabSign q 0)) := by
    rw [slabStep_tmax_n, s0max, s0n]
  have s2n : (boxSlab q).tmax_n =
      if slabTb q 2 < min (slabTb q 0) (slabTb q 1) then Vec3.axisSigned 2 (-(slabSign q 2))
      else if slabTb q 1 < slabTb q 0 then Vec3.axisSigned 1 (-(slabSign q 1))
      else Vec3.axisSigned 0 (-(slabSign q 0)) := by
    unfold boxSlab
    rw [slabStep_tmax_n, s1max, s1n]
  by_cases c2 : slabTb q 2 < min (slabTb q 0) (slabTb q 1)
  · refine ⟨2, by norm_num, ?_, by rw [s2n, if_pos c2]⟩
    unfold slabExit
    rw [min_eq_right c2.le]
  · by_cases c1 : slabTb q 1 < slabTb q 0
    · refine ⟨1, by norm_num, ?_, by rw [s2n, if_neg c2, if_pos c1]⟩
      unfold slabExit
      rw [min_eq_right c1.le, min_eq_left]
      rw [min_eq_right c1.le] at c2
      exact not_lt.mp c2
    · refine ⟨0, by norm_num, ?_, by rw [s2n, if_neg c2, if_neg c1]⟩
      unfold slabExit
      rw [min_eq_left (not_lt.mp c1), min_eq_left]
      rw [min_eq_left (not_lt.mp c1)] at c2
      exact not_lt.mp c2

/-- World-space intersection point the box test produces for an accepted
parameter value `t`, including the motion-blur offset. -/
def boxWorldPoint (box : Geom) (r : Ray) (t : ℝ) : Vec3 :=
  let ip0 := multiplyMV box.transform (getPointOnRay (boxObjectRay box r) t) 1
  if box.moving then ip0 + r.time • (box.target - box.translation) else ip0

theorem boxIntersectionTest_eq (box : Geom) (r : Ray) :
    boxIntersectionTest box r =
      if (boxSlab (boxObjectRay box r)).tmin ≤ (boxSlab (boxObjectRay box r)).tmax ∧
          0 < (boxSlab (boxObjectRay box r)).tmax then
        (Vec3.length (r.origin - boxWorldPoint box r
            (if (boxSlab (boxObjectRay box r)).tmin ≤ 0 then (boxSlab (boxObjectRay box r)).tmax
             else (boxSlab (boxObjectRay box r)).tmin)),
         boxWorldPoint box r
            (if (boxSlab (boxObjectRay box r)).tmin ≤ 0 then (boxSlab (boxObjectRay box r)).tmax
             else (boxSlab (boxObjectRay box r)).tmin),
         Vec3.normalize (multiplyMV box.invTranspose
            (if (boxSlab (boxObjectRay box r)).tmin ≤ 0 then (boxSlab (boxObjectRay box r)).tmax_n
             else (boxSlab (boxObjectRay box r)).tmin_n) 0))
      else (-1, 0, 0) := by
  unfold boxIntersectionTest boxWorldPoint
  by_cases h : (boxSlab (boxObjectRay box r)).tmin ≤ (boxSlab (boxObjectRay box r)).tmax ∧
      0 < (boxSlab (boxObjectRay box r)).tmax <;>
    by_cases h2 : (boxSlab (boxObjectRay box r)).tmin ≤ 0 <;>
      simp [h, h2]

theorem length_nonneg (v : Vec3) : 0 ≤ Vec3.length v := Real.sqrt_nonneg _

theorem fdiv_nan_at_half : FVal.fdiv (-(1/2) - (-(1/2) : ℚ)) 0 = FVal.nan := by
  norm_num [FVal.fdiv]

theorem fdiv_pinf_at_half : FVal.fdiv ((1/2) - (-(1/2) : ℚ)) 0 = FVal.pinf := by
  norm_num [FVal.fdiv]

theorem fSlabStep_nan_unchanged (st : FVal × FVal) :
    FVal.fSlabStep (-(1/2)) 0 st = st := by
  unfold FVal.fSlabStep
  rw [fdiv_nan_at_half, fdiv_pinf_at_half]
  simp [FVal.fmin, FVal.fmax, FVal.flt, FVal.flt_nan_left, FVal.flt_nan_right]

theorem box_accept_cond_iff (box : Geom) (r : Ray)
    (h0 : slabTb (boxObjectRay box r) 0 < bigF) :
    (boxIntersectionTest box r).1 ≠ -1 ↔
      ((boxSlab (boxObjectRay box r)).tmin ≤ (boxSlab (boxObjectRay box r)).tmax ∧
        0 < (boxSlab (boxObjectRay box r)).tmax) := by
  rw [boxIntersectionTest_eq]
  by_cases h : (boxSlab (boxObjectRay box r)).tmin ≤ (boxSlab (boxObjectRay box r)).tmax ∧
      0 < (boxSlab (boxObjectRay box r)).tmax
  · rw [if_pos h]
    dsimp only
    have hl := length_nonneg (r.origin - boxWorldPoint box r
      (if (boxSlab (boxObjectRay box r)).tmin ≤ 0 then (boxSlab (boxObjectRay box r)).tmax
       else (boxSlab (boxObjectRay box r)).tmin))
    constructor
    · intro _; exact h
    · intro _ heq
      rw [heq] at hl
      linarith
  · rw [if_neg h]
    simp [h]

theorem box_spec_cond_iff (box : Geom) (r : Ray)
    (h0 : slabTb (boxObjectRay box r) 0 < bigF) :
    ((boxSlab (boxObjectRay box r)).tmin ≤ (boxSlab (boxObjectRay box r)).tmax ∧
        0 < (boxSlab (boxObjectRay box r)).tmax) ↔
      (slabEntry (boxObjectRay box r) ≤ slabExit (boxObjectRay box r) ∧
        0 < slabExit (boxObjectRay box r)) := by
  rw [boxSlab_tmax _ h0, boxSlab_tmin]
  by_cases hE : 0 < slabEntry (boxObjectRay box r)
  · rw [if_pos hE]
  · rw [if_neg hE]
    constructor
    · rintro ⟨_, h2⟩
      exact ⟨le_trans (not_lt.mp hE) h2.le, h2⟩
    · rintro ⟨_, h2⟩
      refine ⟨?_, h2⟩
      have := bigF_pos
      linarith

/-- Claim C4: `boxIntersectionTest` accepts a hit exactly when the slab
test's exit parameter is at least the entry parameter and the exit is
positive; when the entry is nonpositive (ray origin inside the box) the
exit parameter and its normal are the accepted value; an accepted call
returns the world-space distance from the original ray origin to the
transformed hit point, and a rejected one returns `-1`; and in the IEEE
model of the slab arithmetic, the NaN slab values arising from a zero
direction component fail both the `ta > 0` and `tb < tmax` comparisons, so
the slab state is left unchanged. -/
theorem C4_box_accepts_by_slab (box : Geom) (r : Ray)
    (hd : ∀ i, i < 3 → (boxObjectRay box r).direction.nth i ≠ 0)
    (h0 : slabTb (boxObjectRay box r) 0 < bigF) :
    ((boxIntersectionTest box r).1 ≠ -1 ↔
      slabEntry (boxObjectRay box r) ≤ slabExit (boxObjectRay box r) ∧
        0 < slabExit (boxObjectRay box r)) ∧
    (slabEntry (boxObjectRay box r) ≤ 0 → (boxIntersectionTest box r).1 ≠ -1 →
      ∃ i, i < 3 ∧ slabTb (boxObjectRay box r) i = slabExit (boxObjectRay box r) ∧
        boxIntersectionTest box r =
          (Vec3.length (r.origin -
             boxWorldPoint box r (slabExit (boxObjectRay box r))),
           boxWorldPoint box r (slabExit (boxObjectRay box r)),
           Vec3.normalize (multiplyMV box.invTranspose
             (Vec3.axisSigned i (-(slabSign (boxObjectRay box r) i))) 0))) ∧
    ((boxIntersectionTest box r).1 ≠ -1 →
      (boxIntersectionTest box r).1 =
        Vec3.length (r.origin - (boxIntersectionTest box r).2.1)) ∧
    (¬(slabEntry (boxObjectRay box r) ≤ slabExit (boxObjectRay box r) ∧
        0 < slabExit (boxObjectRay box r)) → (boxIntersectionTest box r).1 = -1) ∧
    (FVal.fdiv (-(1/2) - (-(1/2) : ℚ)) 0 = FVal.nan ∧
     (∀ x : FVal, FVal.flt (FVal.fin 0) FVal.nan = false ∧ FVal.flt FVal.nan x = false) ∧
     (∀ st : FVal × FVal, FVal.fSlabStep (-(1/2)) 0 st = st)) := by
  have hacc := box_accept_cond_iff box r h0
  have hspec := box_spec_cond_iff box r h0
  refine ⟨hacc.trans hspec, ?_, ?_, ?_, fdiv_nan_at_half,
    fun x => ⟨rfl, FVal.flt_nan_left x⟩, fSlabStep_nan_unchanged⟩
  · intro hE0 hne
    have hcond := hacc.mp hne
    have htmin0 : (boxSlab (boxObjectRay box r)).tmin ≤ 0 := by
      rw [boxSlab_tmin, if_neg (not_lt.mpr hE0)]
      have := bigF_pos
      linarith
    obtain ⟨i, hi3, hib, hin⟩ := boxSlab_exit_normal (boxObjectRay box r) h0
    refine ⟨i, hi3, hib, ?_⟩
    rw [boxIntersectionTest_eq, if_pos hcond, if_pos htmin0, boxSlab_tmax _ h0, hin,
      if_pos htmin0]
  · intro hne
    have hcond := hacc.mp hne
    rw [boxIntersectionTest_eq, if_pos hcond]
  · intro hns
    by_contra hne
    exact hns (hspec.mp (hacc.mp hne))

/-- Concrete untransformed, non-moving cube used for witnesses. -/
def boxW : Geom :=
  ⟨GeomType.CUBE, 0, false, 0, 0, idMat, idMat, idMat, 0, 0, 0, 0⟩

/-- Concrete unit-length ray aimed at `boxW` with all direction
components nonzero. -/
def rayW : Ray := ⟨⟨-(2/5), -(1/5), 9/10⟩, ⟨2/3, 1/3, -(2/3)⟩, 0⟩

theorem rayW_dir_length : Vec3.length ⟨2/3, 1/3, -(2/3)⟩ = 1 := by
  unfold Vec3.length Vec3.dot
  rw [show ((2:ℝ)/3 * (2/3) + 1/3 * (1/3) + -(2/3) * -(2/3)) = 1 by norm_num]
  exact Real.sqrt_one

theorem boxW_qray : boxObjectRay boxW rayW = rayW := by
  unfold boxObjectRay boxW rayW
  simp only [Bool.false_eq_true, if_false, multiplyMV_id, Vec3.normalize, rayW_dir_length]
  norm_num

/-- Witness for claim C4 at a concrete box and ray: the hypotheses hold
and the acceptance equivalence follows by the theorem. -/
theorem C4_box_accepts_by_slab_witness :
    (∀ i, i < 3 → (boxObjectRay boxW rayW).direction.nth i ≠ 0) ∧
    slabTb (boxObjectRay boxW rayW) 0 < bigF ∧
    ((boxIntersectionTest boxW rayW).1 ≠ -1 ↔
      slabEntry (boxObjectRay boxW rayW) ≤ slabExit (boxObjectRay boxW rayW) ∧
        0 < slabExit (boxObjectRay boxW rayW)) := by
  have hd : ∀ i, i < 3 → (boxObjectRay boxW rayW).direction.nth i ≠ 0 := by
    intro i hi
    rw [boxW_qray]
    unfold rayW
    interval_cases i <;> norm_num [Vec3.nth]
  have h0 : slabTb (boxObjectRay boxW rayW) 0 < bigF := by
    rw [boxW_qray]
    unfold slabTb slabT1 slabT2 rayW bigF
    rw [max_lt_iff]
    norm_num
  exact ⟨hd, h0, (C4_box_accepts_by_slab boxW rayW hd h0).1⟩

/-- Object-space ray built at the top of `sphereIntersectionTest`,
including motion compensation for moving geometry. -/
def sphereObjectRay (sphere : Geom) (r : Ray) : Ray :=
  { origin :=
      if sphere.moving then
        multiplyMV sphere.inverseTransform
          (r.origin - r.time • (sphere.target - sphere.translation)) 1
      else multiplyMV sphere.inverseTransform r.origin 1
    direction := Vec3.normalize (multiplyMV sphere.inverseTransform r.direction 0)
    time := r.time }

/-- `vDotDirection` of `sphereIntersectionTest`. -/
def sphereVDot (sphere : Geom) (r : Ray) : ℝ :=
  Vec3.dot (sphereObjectRay sphere r).origin (sphereObjectRay sphere r).direction

/-- The quadratic discriminant (`radicand`) of `sphereIntersectionTest`
for the radius-`0.5` origin-centred sphere. -/
def sphereRadicand (sphere : Geom) (r : Ray) : ℝ :=
  sphereVDot sphere r * sphereVDot sphere r -
    (Vec3.dot (sphereObjectRay sphere r).origin (sphereObjectRay sphere r).origin -
      ((1:ℝ)/2) ^ 2)

/-- The root `t1 = -vDotDirection + sqrt(radicand)` (the larger root). -/
def sphereT1 (sphere : Geom) (r : Ray) : ℝ :=
  -sphereVDot sphere r + Real.sqrt (sphereRadicand sphere r)

/-- The root `t2 = -vDotDirection - sqrt(radicand)` (the smaller root). -/
def sphereT2 (sphere : Geom) (r : Ray) : ℝ :=
  -sphereVDot sphere r - Real.sqrt (sphereRadicand sphere r)

/-- The result tuple `sphereIntersectionTest` produces once a parameter
value `t` has been selected. -/
def sphereResultAt (sphere : Geom) (r : Ray) (t : ℝ) : ℝ × Vec3 × Vec3 :=
  let rt := sphereObjectRay sphere r
  let objspaceIntersection := getPointOnRay rt t
  let ip0 := multiplyMV sphere.transform objspaceIntersection 1
  let ip := if sphere.moving then ip0 + r.time • (sphere.target - sphere.translation) else ip0
  (Vec3.length (r.origin - ip), ip,
   Vec3.normalize (multiplyMV sphere.invTranspose objspaceIntersection 0))

/-- `sphereIntersectionTest` from `intersections.h`, returning
`(t, intersectionPoint, normal)`; `(-1, 0, 0)` models the miss return
with unwritten output parameters. -/
def sphereIntersectionTest (sphere : Geom) (r : Ray) : ℝ × Vec3 × Vec3 :=
  if sphereRadicand sphere r < 0 then (-1, 0, 0)
  else if sphereT1 sphere r < 0 ∧ sphereT2 sphere r < 0 then (-1, 0, 0)
  else
    sphereResultAt sphere r
      (if 0 < sphereT1 sphere r ∧ 0 < sphereT2 sphere r then
        min (sphereT1 sphere r) (sphereT2 sphere r)
      else max (sphereT1 sphere r) (sphereT2 sphere r))

theorem sphereT2_le_T1 (sphere : Geom) (r : Ray) :
    sphereT2 sphere r ≤ sphereT1 sphere r := by
  unfold sphereT1 sphereT2
  have := Real.sqrt_nonneg (sphereRadicand sphere r)
  linarith

/-- Claim C5: `sphereIntersectionTest` returns `-1` when the discriminant
is negative or both quadratic roots are negative; when both roots are
positive it takes the smaller root `t2`, otherwise the larger root `t1`
(entry point preferred, exit point when the origin is inside); and the
accepted return value is the world-space distance from the original ray
origin to the hit point. -/
theorem C5_sphere_root_policy (sphere : Geom) (r : Ray) :
    (sphereRadicand sphere r < 0 → sphereIntersectionTest sphere r = (-1, 0, 0)) ∧
    (sphereT1 sphere r < 0 ∧ sphereT2 sphere r < 0 →
      sphereIntersectionTest sphere r = (-1, 0, 0)) ∧
    (0 ≤ sphereRadicand sphere r → 0 < sphereT1 sphere r ∧ 0 < sphereT2 sphere r →
      sphereIntersectionTest sphere r = sphereResultAt sphere r (sphereT2 sphere r) ∧
        sphereT2 sphere r ≤ sphereT1 sphere r) ∧
    (0 ≤ sphereRadicand sphere r → ¬(sphereT1 sphere r < 0 ∧ sphereT2 sphere r < 0) →
      ¬(0 < sphereT1 sphere r ∧ 0 < sphereT2 sphere r) →
      sphereIntersectionTest sphere r = sphereResultAt sphere r (sphereT1 sphere r) ∧
        sphereT2 sphere r ≤ sphereT1 sphere r) ∧
    (∀ t : ℝ, (sphereResultAt sphere r t).1 =
      Vec3.length (r.origin - (sphereResultAt sphere r t).2.1)) := by
  have hle := sphereT2_le_T1 sphere r
  refine ⟨?_, ?_, ?_, ?_, ?_⟩
  · intro h
    unfold sphereIntersectionTest
    rw [if_pos h]
  · intro h
    unfold sphereIntersectionTest
    by_cases hr : sphereRadicand sphere r < 0
    · rw [if_pos hr]
    · rw [if_neg hr, if_pos h]
  · intro hr hpos
    unfold sphereIntersectionTest
    rw [if_neg (not_lt.mpr hr), if_neg (by intro hc; exact absurd hpos.2 (not_lt.mpr hc.2.le)),
      if_pos hpos, min_eq_right hle]
    exact ⟨rfl, hle⟩
  · intro hr hnn hnp
    unfold sphereIntersectionTest
    rw [if_neg (not_lt.mpr hr), if_neg hnn, if_neg hnp, max_eq_left hle]
    exact ⟨rfl, hle⟩
  · intro t
    unfold sphereResultAt
    by_cases hm : sphere.moving = true <;> simp [hm]

/-- Concrete untransformed, non-moving sphere used for witnesses. -/
def sphereW : Geom :=
  ⟨GeomType.SPHERE, 0, false, 0, 0, idMat, idMat, idMat, 0, 0, 0, 0⟩

/-- Concrete ray hitting `sphereW` from outside along `-z`. -/
def rayS : Ray := ⟨⟨0, 0, 2⟩, ⟨0, 0, -1⟩, 0⟩

theorem rayS_dir_length : Vec3.length ⟨0, 0, -1⟩ = 1 := by
  unfold Vec3.length Vec3.dot
  rw [show ((0:ℝ) * 0 + 0 * 0 + -1 * -1) = 1 by norm_num]
  exact Real.sqrt_one

theorem rayS_objray : sphereObjectRay sphereW rayS = rayS := by
  unfold sphereObjectRay sphereW rayS
  simp only [Bool.false_eq_true, if_false, multiplyMV_id, Vec3.normalize, rayS_dir_length]
  norm_num

theorem sphereW_radicand : sphereRadicand sphereW rayS = 1/4 := by
  unfold sphereRadicand sphereVDot
  rw [rayS_objray]
  unfold rayS Vec3.dot
  norm_num

theorem sphereW_vdot : sphereVDot sphereW rayS = -2 := by
  unfold sphereVDot
  rw [rayS_objray]
  unfold rayS Vec3.dot
  norm_num

theorem sqrt_one_quarter : Real.sqrt (1/4) = 1/2 := by
  rw [show ((1:ℝ)/4) = (1/2) ^ 2 by norm_num]
  exact Real.sqrt_sq (by norm_num)

theorem sphereW_t1 : sphereT1 sphereW rayS = 5/2 := by
  unfold sphereT1
  rw [sphereW_vdot, sphereW_radicand, sqrt_one_quarter]
  norm_num

theorem sphereW_t2 : sphereT2 sphereW rayS = 3/2 := by
  unfold sphereT2
  rw [sphereW_vdot, sphereW_radicand, sqrt_one_quarter]
  norm_num

/-- Witness for claim C5 at a concrete sphere and ray: the discriminant is
nonnegative, both roots are positive, and by the theorem the smaller root
is the accepted one. -/
theorem C5_sphere_root_policy_witness :
    0 ≤ sphereRadicand sphereW rayS ∧
    (0 < sphereT1 sphereW rayS ∧ 0 < sphereT2 sphereW rayS) ∧
    (sphereIntersectionTest sphereW rayS = sphereResultAt sphereW rayS (sphereT2 sphereW rayS) ∧
      sphereT2 sphereW rayS ≤ sphereT1 sphereW rayS) := by
  have hr : 0 ≤ sphereRadicand sphereW rayS := by rw [sphereW_radicand]; norm_num
  have hp : 0 < sphereT1 sphereW rayS ∧ 0 < sphereT2 sphereW rayS := by
    rw [sphereW_t1, sphereW_t2]
    norm_num
  exact ⟨hr, hp, (C5_sphere_root_policy sphereW rayS).2.2.1 hr hp⟩

/-- State threaded through the slab loop of `boundingIntersectionTest`. -/
structure BoundState where
  tmin : ℝ
  tmax : ℝ

/-- One iteration of the loop body of `boundingIntersectionTest`. -/
def boundStep (r : Ray) (leftBottom rightTop : Vec3) (i : ℕ) (s : BoundState) : BoundState :=
  let t1 := (leftBottom.nth i - r.origin.nth i) / r.direction.nth i
  let t2 := (rightTop.nth i - r.origin.nth i) / r.direction.nth i
  let ta := min t1 t2
  let tb := max t1 t2
  let s1 := if 0 < ta ∧ s.tmin < ta then { s with tmin := ta } else s
  if tb < s1.tmax then { s1 with tmax := tb } else s1

/-- `boundingIntersectionTest` from `intersections.h`: the axis-aligned
bounding-box pre-test of the mesh intersection. -/
def boundingIntersectionTest (r : Ray) (leftBottom rightTop : Vec3) : Bool :=
  let s := boundStep r leftBottom rightTop 2
    (boundStep r leftBottom rightTop 1 (boundStep r leftBottom rightTop 0 ⟨-bigF, bigF⟩))
  if s.tmin ≤ s.tmax ∧ 0 < s.tmax then true else false

/-- The machine epsilon of `float`, `2^-23`. -/
def epsF : ℝ := 1 / 2 ^ 23

/-- Embedding of `glm::intersectRayTriangle` (the pre-0.9.9 overload the
code calls, which returns the two barycentric coordinates and the ray
parameter in one vector `(x = u, y = v, z = t)`): Möller–Trumbore with an
epsilon parallelism/backface rejection.  `none` models a `false` return. -/
def intersectRayTriangle (orig dir v0 v1 v2 : Vec3) : Option Vec3 :=
  let e1 := v1 - v0
  let e2 := v2 - v0
  let p := Vec3.cross dir e2
  let a := Vec3.dot e1 p
  if a < epsF then none
  else
    let f := 1 / a
    let s := orig - v0
    let u := f * Vec3.dot s p
    if u < 0 then none
    else if 1 < u then none
    else
      let q := Vec3.cross s e1
      let v := f * Vec3.dot dir q
      if v < 0 then none
      else if 1 < v + u then none
      else
        let t := f * Vec3.dot e2 q
        if 0 ≤ t then some ⟨u, v, t⟩ else none

/-- Object-space ray `rt` built at the top of `meshIntersectionTest`
(same construction as the sphere test). -/
def meshObjectRay (mesh : Geom) (r : Ray) : Ray :=
  { origin :=
      if mesh.moving then
        multiplyMV mesh.inverseTransform
          (r.origin - r.time • (mesh.target - mesh.translation)) 1
      else multiplyMV mesh.inverseTransform r.origin 1
    direction := Vec3.normalize (multiplyMV mesh.inverseTransform r.direction 0)
    time := r.time }

/-- The ray parameter `tvec.z` the mesh scan reads for triangle `i`, or
`-1` when `glm::intersectRayTriangle` reports no hit (in which case the
loop body never reads the candidate, so any non-positive value is
observationally faithful). -/
def meshTriT (triangles : ℤ → Triangle) (rt : Ray) (i : ℤ) : ℝ :=
  match intersectRayTriangle rt.origin rt.direction
      (triangles i).p1 (triangles i).p2 (triangles i).p3 with
  | some tvec => tvec.z
  | none => -1

/-- The barycentric vector `tvec` recorded for triangle `i` when it is the
running minimum (read only for triangles that intersect). -/
def meshTriBary (triangles : ℤ → Triangle) (rt : Ray) (i : ℤ) : Vec3 :=
  match intersectRayTriangle rt.origin rt.direction
      (triangles i).p1 (triangles i).p2 (triangles i).p3 with
  | some tvec => tvec
  | none => 0

/-- The running-minimum scan shared by `meshIntersectionTest` (over
triangle indices) and `computeIntersections` (over geometry records):
state `(t_min, argmin)`, updated when `score a > 0 && t_min > score a`. -/
def minPosFold {α : Type} (score : α → ℝ) : List α → ℝ × Option α → ℝ × Option α
  | [], s => s
  | a :: rest, s =>
      minPosFold score rest (if 0 < score a ∧ score a < s.1 then (score a, some a) else s)

theorem minPosFold_spec {α : Type} (score : α → ℝ) (l : List α) :
    ∀ (tm : ℝ) (acc : Option α),
      (minPosFold score l (tm, acc) = (tm, acc) ∧
        ∀ a ∈ l, 0 < score a → tm ≤ score a) ∨
      (∃ a ∈ l, minPosFold score l (tm, acc) = (score a, some a) ∧ 0 < score a ∧
        score a < tm ∧ ∀ b ∈ l, 0 < score b → score a ≤ score b) := by
  induction l with
  | nil =>
    intro tm acc
    left
    exact ⟨rfl, by simp⟩
  | cons a rest ih =>
    intro tm acc
    by_cases h : 0 < score a ∧ score a < tm
    · right
      rcases ih (score a) (some a) with ⟨heq, hall⟩ | ⟨b, hb, heq, hpos, hlt, hall⟩
      · refine ⟨a, List.mem_cons_self a rest, ?_, h.1, h.2, ?_⟩
        · simp only [minPosFold, if_pos h]
          exact heq
        · intro b hb hbpos
          rcases List.mem_cons.mp hb with rfl | hb2
          · exact le_refl _
          · exact hall b hb2 hbpos
      · refine ⟨b, List.mem_cons_of_mem a hb, ?_, hpos, lt_trans hlt h.2, ?_⟩
        · simp only [minPosFold, if_pos h]
          exact heq
        · intro c hc hcpos
          rcases List.mem_cons.mp hc with rfl | hc2
          · exact hlt.le
          · exact hall c hc2 hcpos
    · rcases ih tm acc with ⟨heq, hall⟩ | ⟨b, hb, heq, hpos, hlt, hall⟩
      · left
        refine ⟨?_, ?_⟩
        · simp only [minPosFold, if_neg h]
          exact heq
        · intro b hb hbpos
          rcases List.mem_cons.mp hb with rfl | hb2
          · exact not_lt.mp fun hlt2 => h ⟨hbpos, hlt2⟩
          · exact hall b hb2 hbpos
      · right
        refine ⟨b, List.mem_cons_of_mem a hb, ?_, hpos, hlt, ?_⟩
        · simp only [minPosFold, if_neg h]
          exact heq
        · intro c hc hcpos
          rcases List.mem_cons.mp hc with rfl | hc2
          · have h2 : tm ≤ score c := not_lt.mp fun hlt2 => h ⟨hcpos, hlt2⟩
            linarith
          · exact hall c hc2 hcpos

/-- The inclusive index range `startIndex..endIndex` the mesh scan visits. -/
def intRange (a b : ℤ) : List ℤ :=
  (List.range (b + 1 - a).toNat).map (fun k => a + (k : ℤ))

/-- The pre-flip/post-flip object-space shading normal the mesh test
builds for the winning triangle `i`: the vertex normals weighted by the
recorded `tvec` components (`n1 * tvec.x + n2 * tvec.y + n3 * tvec.z`),
negated when it faces along the object-space ray direction. -/
def meshInterpNormal (triangles : ℤ → Triangle) (rt : Ray) (i : ℤ) : Vec3 :=
  let tvec := meshTriBary triangles rt i
  let n0 := ((triangles i).n1.smul tvec.x + (triangles i).n2.smul tvec.y) +
    (triangles i).n3.smul tvec.z
  if 0 < Vec3.dot n0 rt.direction then -n0 else n0

/-- World-space intersection point the mesh test produces for the accepted
parameter value `t_min`, including the motion-blur offset. -/
def meshWorldPoint (mesh : Geom) (r : Ray) (t : ℝ) : Vec3 :=
  let ip0 := multiplyMV mesh.transform (getPointOnRay (meshObjectRay mesh r) t) 1
  if mesh.moving then ip0 + r.time • (mesh.target - mesh.translation) else ip0

/-- `meshIntersectionTest` from `intersections.h` (with
`BOUNDING_BOX_ENABLE` set to 1 as compiled): bounding pre-test, linear
scan of the triangle range keeping the nearest positive `t`, vertex-normal
combination weighted by the recorded `tvec`, facing flip, inverse-transpose
transform and renormalisation. -/
def meshIntersectionTest (mesh : Geom) (r : Ray) (triangles : ℤ → Triangle) :
    ℝ × Vec3 × Vec3 :=
  let rt := meshObjectRay mesh r
  if boundingIntersectionTest rt mesh.leftBottom mesh.rightTop = false then (-1, 0, 0)
  else
    let res := minPosFold (meshTriT triangles rt)
      (intRange mesh.startIndex mesh.endIndex) (fltMax, none)
    match res.2 with
    | none => (-1, 0, 0)
    | some i =>
        (Vec3.length (r.origin - meshWorldPoint mesh r res.1), meshWorldPoint mesh r res.1,
         Vec3.normalize (multiplyMV mesh.invTranspose (meshInterpNormal triangles rt i) 0))

/-- The per-record dispatch of `computeIntersections` on the geometry type. -/
def geomIntersect (triangles : ℤ → Triangle) (g : Geom) (r : Ray) : ℝ × Vec3 × Vec3 :=
  match g.type with
  | GeomType.CUBE => boxIntersectionTest g r
  | GeomType.SPHERE => sphereIntersectionTest g r
  | GeomType.MESH => meshIntersectionTest g r triangles

/-- `computeIntersections` from `pathtrace.cu` for one path: linear scan
over the geometry records keeping the minimum positive `t`; the record's
material id, hit point and normal are stored on a hit, and `t = -1` when
nothing is hit (the remaining fields stay at the zero the per-depth
`cudaMemset` wrote). -/
def computeIntersections (geoms : List Geom) (triangles : ℤ → Triangle)
    (seg : PathSegment) : ShadeableIntersection :=
  let res := minPosFold (fun g => (geomIntersect triangles g seg.ray).1) geoms (fltMax, none)
  match res.2 with
  | none => ⟨-1, 0, 0, 0⟩
  | some g =>
      ⟨res.1, g.materialid, (geomIntersect triangles g seg.ray).2.2,
       (geomIntersect triangles g seg.ray).2.1⟩

/-- Claim C6: `computeIntersections` records the hit whose returned `t` is
minimal among the positive dispatch results, taking material id, hit point
and normal from that record, and records the sentinel `t = -1` when no
record yields a positive `t`.  The hypothesis bounds every dispatch result
below `FLT_MAX`, the largest value a finite float `t` can take (it is also
the initial running minimum). -/
theorem C6_compute_min_positive (geoms : List Geom) (triangles : ℤ → Triangle)
    (seg : PathSegment)
    (hb : ∀ g ∈ geoms, (geomIntersect triangles g seg.ray).1 < fltMax) :
    ((∃ g ∈ geoms, 0 < (geomIntersect triangles g seg.ray).1) →
      ∃ g ∈ geoms,
        computeIntersections geoms triangles seg =
          ⟨(geomIntersect triangles g seg.ray).1, g.materialid,
           (geomIntersect triangles g seg.ray).2.2,
           (geomIntersect triangles g seg.ray).2.1⟩ ∧
        0 < (geomIntersect triangles g seg.ray).1 ∧
        ∀ g2 ∈ geoms, 0 < (geomIntersect triangles g2 seg.ray).1 →
          (geomIntersect triangles g seg.ray).1 ≤ (geomIntersect triangles g2 seg.ray).1) ∧
    ((∀ g ∈ geoms, (geomIntersect triangles g seg.ray).1 ≤ 0) →
      computeIntersections geoms triangles seg = ⟨-1, 0, 0, 0⟩) := by
  rcases minPosFold_spec (fun g => (geomIntersect triangles g seg.ray).1) geoms fltMax none with
    ⟨heq, hall⟩ | ⟨a, ha, heq, hpos, hlt, hall⟩
  · constructor
    · rintro ⟨g, hg, hgpos⟩
      exact absurd (hall g hg hgpos) (not_le.mpr (hb g hg))
    · intro _
      unfold computeIntersections
      rw [heq]
  · constructor
    · intro _
      refine ⟨a, ha, ?_, hpos, hall⟩
      unfold computeIntersections
      rw [heq]
    · intro hnp
      exact absurd hpos (not_lt.mpr (hnp a ha))

theorem rayS_dir_normalize : Vec3.normalize ⟨0, 0, -1⟩ = ⟨0, 0, -1⟩ := by
  unfold Vec3.normalize
  rw [rayS_dir_length]
  norm_num

theorem length_z (c : ℝ) (hc : 0 ≤ c) : Vec3.length ⟨0, 0, c⟩ = c := by
  unfold Vec3.length Vec3.dot
  rw [show ((0:ℝ) * 0 + 0 * 0 + c * c) = c ^ 2 by ring]
  exact Real.sqrt_sq hc

theorem sphereW_eval :
    sphereIntersectionTest sphereW rayS = sphereResultAt sphereW rayS (3/2) := by
  unfold sphereIntersectionTest
  rw [sphereW_radicand, sphereW_t1, sphereW_t2]
  norm_num

theorem rayS_point : getPointOnRay rayS (3/2) = ⟨0, 0, 5001/10000⟩ := by
  unfold getPointOnRay rayS
  rw [rayS_dir_normalize]
  ext <;> norm_num

theorem sphereW_result_fst : (sphereResultAt sphereW rayS (3/2)).1 = 14999/10000 := by
  unfold sphereResultAt
  dsimp only
  rw [rayS_objray, rayS_point]
  simp only [sphereW, Bool.false_eq_true, if_false, multiplyMV_id]
  unfold rayS
  rw [show (⟨0, 0, 2⟩ - ⟨0, 0, 5001/10000⟩ : Vec3) = ⟨0, 0, 14999/10000⟩ by
    ext <;> norm_num]
  exact length_z _ (by norm_num)

/-- Degenerate triangle table for witnesses of scenes without meshes. -/
def trisW : ℤ → Triangle := fun _ => ⟨0, 0, 0, 0, 0, 0⟩

/-- Path segment aiming `rayS` at the witness sphere. -/
def segW : PathSegment := ⟨rayS, ⟨1, 1, 1⟩, 0, 1⟩

theorem geomIntersect_sphereW :
    (geomIntersect trisW sphereW segW.ray).1 = 14999/10000 := by
  have h : geomIntersect trisW sphereW segW.ray = sphereIntersectionTest sphereW rayS := rfl
  rw [h, sphereW_eval, sphereW_result_fst]

/-- Witness for claim C6 on a one-sphere scene: the bound hypothesis and a
positive hit hold, and the theorem yields the recorded minimum. -/
theorem C6_compute_min_positive_witness :
    (∀ g ∈ [sphereW], (geomIntersect trisW g segW.ray).1 < fltMax) ∧
    (∃ g ∈ [sphereW], 0 < (geomIntersect trisW g segW.ray).1) ∧
    (∃ g ∈ [sphereW],
      computeIntersections [sphereW] trisW segW =
        ⟨(geomIntersect trisW g segW.ray).1, g.materialid,
         (geomIntersect trisW g segW.ray).2.2,
         (geomIntersect trisW g segW.ray).2.1⟩ ∧
      0 < (geomIntersect trisW g segW.ray).1 ∧
      ∀ g2 ∈ [sphereW], 0 < (geomIntersect trisW g2 segW.ray).1 →
        (geomIntersect trisW g segW.ray).1 ≤ (geomIntersect trisW g2 segW.ray).1) := by
  have hb : ∀ g ∈ [sphereW], (geomIntersect trisW g segW.ray).1 < fltMax := by
    intro g hg
    rcases List.mem_singleton.mp hg with rfl
    rw [geomIntersect_sphereW]
    norm_num [fltMax]
  have hex : ∃ g ∈ [sphereW], 0 < (geomIntersect trisW g segW.ray).1 := by
    refine ⟨sphereW, by simp, ?_⟩
    rw [geomIntersect_sphereW]
    norm_num
  exact ⟨hb, hex, (C6_compute_min_positive [sphereW] trisW segW hb).1 hex⟩

theorem meshTriBary_z (triangles : ℤ → Triangle) (rt : Ray) (i : ℤ)
    (h : 0 < meshTriT triangles rt i) :
    (meshTriBary triangles rt i).z = meshTriT triangles rt i := by
  unfold meshTriT at h
  unfold meshTriT meshTriBary
  cases hcase : intersectRayTriangle rt.origin rt.direction
      (triangles i).p1 (triangles i).p2 (triangles i).p3 with
  | none =>
    rw [hcase] at h
    norm_num at h
  | some tvec =>
    rfl

/-- Claim C1 (amended): for a mesh whose object-space ray passes the
bounding pre-test, when some triangle in the range has a positive-`t`
intersection (all below `FLT_MAX`), `meshIntersectionTest` keeps a
nearest positive-`t` triangle and returns the distance to that hit's
transformed point together with a shading normal combined from the
triangle's vertex normals weighted by the recorded `tvec` — whose third
component is the ray parameter `t`, not `1 - u - v` — flipped to face the
incoming ray and transformed by the inverse transpose and renormalised. -/
theorem C1_mesh_nearest_amended (mesh : Geom) (r : Ray) (triangles : ℤ → Triangle)
    (hbound : boundingIntersectionTest (meshObjectRay mesh r)
      mesh.leftBottom mesh.rightTop = true)
    (hb : ∀ i ∈ intRange mesh.startIndex mesh.endIndex,
      meshTriT triangles (meshObjectRay mesh r) i < fltMax)
    (hex : ∃ i ∈ intRange mesh.startIndex mesh.endIndex,
      0 < meshTriT triangles (meshObjectRay mesh r) i) :
    ∃ i ∈ intRange mesh.startIndex mesh.endIndex,
      0 < meshTriT triangles (meshObjectRay mesh r) i ∧
      (∀ j ∈ intRange mesh.startIndex mesh.endIndex,
        0 < meshTriT triangles (meshObjectRay mesh r) j →
          meshTriT triangles (meshObjectRay mesh r) i ≤
            meshTriT triangles (meshObjectRay mesh r) j) ∧
      (meshTriBary triangles (meshObjectRay mesh r) i).z =
        meshTriT triangles (meshObjectRay mesh r) i ∧
      meshIntersectionTest mesh r triangles =
        (Vec3.length (r.origin -
           meshWorldPoint mesh r (meshTriT triangles (meshObjectRay mesh r) i)),
         meshWorldPoint mesh r (meshTriT triangles (meshObjectRay mesh r) i),
         Vec3.normalize (multiplyMV mesh.invTranspose
           (meshInterpNormal triangles (meshObjectRay mesh r) i) 0)) := by
  rcases minPosFold_spec (meshTriT triangles (meshObjectRay mesh r))
      (intRange mesh.startIndex mesh.endIndex) fltMax none with
    ⟨heq, hall⟩ | ⟨a, ha, heq, hpos, hlt, hall⟩
  · obtain ⟨i, hi, hipos⟩ := hex
    exact absurd (hall i hi hipos) (not_le.mpr (hb i hi))
  · refine ⟨a, ha, hpos, hall, meshTriBary_z _ _ _ hpos, ?_⟩
    unfold meshIntersectionTest
    dsimp only
    rw [hbound]
    simp only [Bool.true_eq_false, if_false]
    rw [heq]

/-- Spec-side definition following claim C1's words: the shading normal
interpolated from the triangle's three vertex normals with barycentric
weights that sum to one, the third equal to one minus the other two,
flipped to face the incoming ray, transformed by the mesh's inverse
transpose and renormalised. -/
def meshNormalClaimed (mesh : Geom) (r : Ray) (tri : Triangle) (u v : ℝ) : Vec3 :=
  let rt := meshObjectRay mesh r
  let n0 := (tri.n1.smul u + tri.n2.smul v) + tri.n3.smul (1 - u - v)
  let n1 := if 0 < Vec3.dot n0 rt.direction then -n0 else n0
  Vec3.normalize (multiplyMV mesh.invTranspose n1 0)

/-- Concrete triangle in the `z = 0` plane with mixed vertex normals. -/
def triC : Triangle :=
  ⟨⟨0, 0, 0⟩, ⟨4, 0, 0⟩, ⟨0, 4, 0⟩, ⟨0, 0, 1⟩, ⟨0, 0, 1⟩, ⟨1, 0, 0⟩⟩

/-- Triangle table holding `triC` everywhere. -/
def trisM : ℤ → Triangle := fun _ => triC

/-- Concrete one-triangle mesh whose bounding corners enclose `triC`. -/
def meshW : Geom :=
  ⟨GeomType.MESH, 0, false, 0, 0, idMat, idMat, idMat, 0, 0, ⟨0, 0, 0⟩, ⟨4, 4, 0⟩⟩

/-- Concrete unit-length ray hitting `triC` at barycentric `(1/4, 1/8)`
with ray parameter `3/2`. -/
def rayM : Ray := ⟨⟨0, 0, 1⟩, ⟨2/3, 1/3, -(2/3)⟩, 0⟩

theorem rayM_obj : meshObjectRay meshW rayM = rayM := by
  unfold meshObjectRay meshW rayM
  simp only [Bool.false_eq_true, if_false, multiplyMV_id, Vec3.normalize, rayW_dir_length]
  norm_num

theorem boundM : boundingIntersectionTest rayM ⟨0, 0, 0⟩ ⟨4, 4, 0⟩ = true := by
  unfold boundingIntersectionTest boundStep rayM
  norm_num [Vec3.nth, bigF, min_def, max_def]

theorem triHitM :
    intersectRayTriangle rayM.origin rayM.direction triC.p1 triC.p2 triC.p3 =
      some ⟨1/4, 1/8, 3/2⟩ := by
  unfold intersectRayTriangle rayM triC
  norm_num [Vec3.cross, Vec3.dot, epsF]

theorem triT_M : meshTriT trisM rayM 0 = 3/2 := by
  unfold meshTriT trisM
  rw [triHitM]

theorem baryM : meshTriBary trisM rayM 0 = ⟨1/4, 1/8, 3/2⟩ := by
  unfold meshTriBary trisM
  rw [triHitM]

theorem rangeM : intRange 0 0 = [(0:ℤ)] := by decide

theorem foldM :
    minPosFold (meshTriT trisM rayM) [(0:ℤ)] (fltMax, none) = (3/2, some 0) := by
  simp only [minPosFold, triT_M]
  rw [if_pos ⟨by norm_num, by norm_num [fltMax]⟩]

theorem meshInterp_M : meshInterpNormal trisM rayM 0 = ⟨-(3/2), 0, -(3/8)⟩ := by
  unfold meshInterpNormal
  rw [baryM]
  dsimp only
  unfold trisM triC rayM Vec3.smul Vec3.dot
  rw [if_pos (by norm_num)]
  ext <;> norm_num

theorem meshM_normal : (meshIntersectionTest meshW rayM trisM).2.2 =
    Vec3.normalize ⟨-(3/2), 0, -(3/8)⟩ := by
  unfold meshIntersectionTest
  dsimp only
  rw [rayM_obj]
  simp only [meshW]
  rw [boundM]
  simp only [Bool.true_eq_false, if_false]
  rw [rangeM, foldM]
  dsimp only
  rw [show meshInterpNormal trisM rayM 0 = ⟨-(3/2), 0, -(3/8)⟩ from meshInterp_M,
    multiplyMV_id]

theorem claimedM : meshNormalClaimed meshW rayM triC (1/4) (1/8) =
    Vec3.normalize ⟨-(5/8), 0, -(3/8)⟩ := by
  unfold meshNormalClaimed
  rw [rayM_obj]
  dsimp only
  rw [show (triC.n1.smul (1/4) + triC.n2.smul (1/8)) + triC.n3.smul (1 - 1/4 - 1/8) =
      (⟨5/8, 0, 3/8⟩ : Vec3) by unfold triC Vec3.smul; ext <;> norm_num]
  rw [if_pos (show 0 < Vec3.dot ⟨5/8, 0, 3/8⟩ rayM.direction by
    unfold rayM Vec3.dot; norm_num)]
  rw [show meshW.invTranspose = idMat from rfl,
    show -(⟨5/8, 0, 3/8⟩ : Vec3) = (⟨-(5/8), 0, -(3/8)⟩ : Vec3) by ext <;> norm_num,
    multiplyMV_id]

theorem meshM_normals_ne :
    Vec3.normalize ⟨-(3/2), 0, -(3/8)⟩ ≠ Vec3.normalize ⟨-(5/8), 0, -(3/8)⟩ := by
  intro h
  have hL1 : 0 < Vec3.length ⟨-(3/2), 0, -(3/8)⟩ := by
    unfold Vec3.length Vec3.dot
    apply Real.sqrt_pos.mpr
    norm_num
  have hL2 : 0 < Vec3.length ⟨-(5/8), 0, -(3/8)⟩ := by
    unfold Vec3.length Vec3.dot
    apply Real.sqrt_pos.mpr
    norm_num
  have hz := congrArg Vec3.z h
  have hx := congrArg Vec3.x h
  unfold Vec3.normalize at hz hx
  dsimp only at hz hx
  rw [div_eq_div_iff hL1.ne' hL2.ne'] at hz hx
  have hL := mul_left_cancel₀ (show (-(3/8):ℝ) ≠ 0 by norm_num) hz
  rw [hL] at hx
  have hcontra := mul_right_cancel₀ hL1.ne' hx
  norm_num at hcontra

/-- Claim C1 counterexample: at a concrete one-triangle mesh and ray, the
triangle is hit with barycentric coordinates `(1/4, 1/8)` and positive ray
parameter `3/2`, yet the returned shading normal differs from the claimed
barycentric interpolation (third weight `1 - u - v`) of the vertex
normals, because the code weights the third vertex normal by the ray
parameter `tvec.z` instead. -/
theorem C1_counterexample :
    intersectRayTriangle rayM.origin rayM.direction triC.p1 triC.p2 triC.p3 =
      some ⟨1/4, 1/8, 3/2⟩ ∧
    meshObjectRay meshW rayM = rayM ∧
    (meshIntersectionTest meshW rayM trisM).2.2 ≠
      meshNormalClaimed meshW rayM triC (1/4) (1/8) := by
  refine ⟨triHitM, rayM_obj, ?_⟩
  rw [meshM_normal, claimedM]
  exact meshM_normals_ne

/-- Witness for claim C1 (amended) at the concrete one-triangle mesh: the
bounding pre-test passes, the only triangle is hit at a positive `t`
below `FLT_MAX`, and the theorem produces the nearest-hit description. -/
theorem C1_mesh_nearest_amended_witness :
    (boundingIntersectionTest (meshObjectRay meshW rayM)
      meshW.leftBottom meshW.rightTop = true) ∧
    (∀ i ∈ intRange meshW.startIndex meshW.endIndex,
      meshTriT trisM (meshObjectRay meshW rayM) i < fltMax) ∧
    ∃ i ∈ intRange meshW.startIndex meshW.endIndex,
      0 < meshTriT trisM (meshObjectRay meshW rayM) i ∧
      (∀ j ∈ intRange meshW.startIndex meshW.endIndex,
        0 < meshTriT trisM (meshObjectRay meshW rayM) j →
          meshTriT trisM (meshObjectRay meshW rayM) i ≤
            meshTriT trisM (meshObjectRay meshW rayM) j) ∧
      (meshTriBary trisM (meshObjectRay meshW rayM) i).z =
        meshTriT trisM (meshObjectRay meshW rayM) i ∧
      meshIntersectionTest meshW rayM trisM =
        (Vec3.length (rayM.origin -
           meshWorldPoint meshW rayM (meshTriT trisM (meshObjectRay meshW rayM) i)),
         meshWorldPoint meshW rayM (meshTriT trisM (meshObjectRay meshW rayM) i),
         Vec3.normalize (multiplyMV meshW.invTranspose
           (meshInterpNormal trisM (meshObjectRay meshW rayM) i) 0)) := by
  have hrange : intRange meshW.startIndex meshW.endIndex = [(0:ℤ)] := rangeM
  have hbound : boundingIntersectionTest (meshObjectRay meshW rayM)
      meshW.leftBottom meshW.rightTop = true := by
    rw [rayM_obj]
    exact boundM
  have hb : ∀ i ∈ intRange meshW.startIndex meshW.endIndex,
      meshTriT trisM (meshObjectRay meshW rayM) i < fltMax := by
    intro i hi
    rw [hrange] at hi
    rcases List.mem_singleton.mp hi with rfl
    rw [rayM_obj, triT_M]
    norm_num [fltMax]
  have hex : ∃ i ∈ intRange meshW.startIndex meshW.endIndex,
      0 < meshTriT trisM (meshObjectRay meshW rayM) i := by
    refine ⟨0, by rw [hrange]; simp, ?_⟩
    rw [rayM_obj, triT_M]
    norm_num
  exact ⟨hbound, hb, C1_mesh_nearest_amended meshW rayM trisM hbound hb hex⟩

end

noncomputable section

/-- The vertical sky gradient applied by `shadeBSDFMaterial` when
`AMBIENT_LIGHT_ENABLE` is on: `t = 0.5 * (normalize(dir).y + 1)` blended
between white and `(0.5, 0.7, 1.0)`. -/
def skyColor (dir : Vec3) : Vec3 :=
  let t := (1/2) * ((Vec3.normalize dir).y + 1)
  (⟨1, 1, 1⟩ : Vec3).smul (1 - t) + (⟨1/2, 7/10, 1⟩ : Vec3).smul t

/-- The 32-bit seed `shadeBSDFMaterial` builds on line 360:
`makeSeededRandomEngine(iter, idx, pathSegments[idx].remainingBounces)` —
note the third argument is the remaining-bounce counter. -/
def shadeRngSeed (iter idx : ℕ) (seg : PathSegment) : ℕ :=
  makeSeededRandomEngine iter idx seg.remainingBounces.toNat

/-- Type of the external `scatterRay` collaborator from `interactions.h`
(not part of the analysed sources): it receives the path segment, hit
point, surface normal, material and the seeded random engine, and returns
the updated segment.  All theorems quantify over it. -/
def Scatter : Type := PathSegment → Vec3 → Vec3 → Material → ℕ → PathSegment

/-- `shadeBSDFMaterial` from `pathtrace.cu` for one path: early return for
non-positive remaining bounces; emissive hits multiply the colour by
`materialColor * emittance` and set the counter to `-1`; non-emissive hits
scatter, decrement the counter, and on exhaustion multiply by the ambient
sky (or zero the colour); misses multiply by the ambient sky (or zero) and
set the counter to `0`.  `ambient` models the `AMBIENT_LIGHT_ENABLE`
toggle. -/
def shadeBSDFMaterial (ambient : Bool) (scatter : Scatter) (iter idx : ℕ)
    (materials : ℤ → Material) (intersection : ShadeableIntersection)
    (seg : PathSegment) : PathSegment :=
  if seg.remainingBounces ≤ 0 then seg
  else if 0 < intersection.t then
    let rng := shadeRngSeed iter idx seg
    let material := materials intersection.materialId
    if 0 < material.emittance then
      if 0 ≤ seg.remainingBounces then
        { seg with color := seg.color * material.color.smul material.emittance
                   remainingBounces := -1 }
      else seg
    else
      let seg1 := scatter seg intersection.point intersection.surfaceNormal material rng
      let seg2 := { seg1 with remainingBounces := seg1.remainingBounces - 1 }
      if seg2.remainingBounces ≤ 0 then
        { seg2 with color :=
            if ambient then seg2.color * skyColor seg2.ray.direction else 0 }
      else seg2
  else
    { seg with color := (if ambient then seg.color * skyColor seg.ray.direction else 0)
               remainingBounces := 0 }

/-- `generateRayFromCamera` from `pathtrace.cu` with the antialiasing,
depth-of-field and motion-blur toggles off, as compiled.  The ray's time
field is uninitialised in the source when motion blur is off and is only
read for moving geometry; it is modelled as `0`. -/
def generateRayFromCamera (cam : Camera) (iter : ℕ) (traceDepth : ℤ)
    (x y : ℤ) : PathSegment :=
  { ray :=
      { origin := cam.position
        direction := Vec3.normalize
          ((cam.view -
            cam.right.smul (cam.pixelLengthX * ((x:ℝ) - (cam.resolutionX:ℝ) * (1/2)))) -
            cam.up.smul (cam.pixelLengthY * ((y:ℝ) - (cam.resolutionY:ℝ) * (1/2))))
        time := 0 }
    color := ⟨1, 1, 1⟩
    pixelIndex := x + y * cam.resolutionX
    remainingBounces := traceDepth }

/-- The generated path array indexed by flat path index
(`index = x + y * resolution.x`). -/
def genPaths (cam : Camera) (iter : ℕ) (traceDepth : ℤ) : ℕ → PathSegment :=
  fun idx => generateRayFromCamera cam iter traceDepth
    ((idx : ℤ) % cam.resolutionX) ((idx : ℤ) / cam.resolutionX)

/-- One `INTERSECT → SHADE` round of the depth loop of `pathtrace` (with
stream compaction, caching and material sort off, as compiled): every path
gets a fresh intersection and is shaded in place. -/
def depthRound (ambient : Bool) (scatter : Scatter) (iter : ℕ) (geoms : List Geom)
    (triangles : ℤ → Triangle) (materials : ℤ → Material)
    (paths : ℕ → PathSegment) : ℕ → PathSegment :=
  fun idx => shadeBSDFMaterial ambient scatter iter idx materials
    (computeIntersections geoms triangles (paths idx)) (paths idx)

/-- `k` consecutive rounds of the depth loop. -/
def depthRounds (ambient : Bool) (scatter : Scatter) (iter : ℕ) (geoms : List Geom)
    (triangles : ℤ → Triangle) (materials : ℤ → Material) :
    ℕ → (ℕ → PathSegment) → (ℕ → PathSegment)
  | 0, paths => paths
  | k + 1, paths =>
      depthRounds ambient scatter iter geoms triangles materials k
        (depthRound ambient scatter iter geoms triangles materials paths)

/-- Number of rounds the `while (!iterationComplete)` loop executes with
compaction off: `depth` is incremented before the `depth >= traceDepth`
check, so a non-positive configured depth still runs one round. -/
def pathtraceRounds (traceDepth : ℤ) : ℕ := max traceDepth.toNat 1

/-- `finalGather` from `pathtrace.cu`: every path adds its colour into the
image at its owning pixel index. -/
def finalGather (paths : ℕ → PathSegment) (n : ℕ) (image : ℤ → Vec3) : ℤ → Vec3 :=
  (List.range n).foldl
    (fun img idx => fun p =>
      if p = (paths idx).pixelIndex then img p + (paths idx).color else img p)
    image

/-- One full iteration of `pathtrace`: generate, run the depth loop, and
gather all `pixelcount` paths into the accumulation image. -/
def pathtraceIteration (ambient : Bool) (scatter : Scatter) (cam : Camera)
    (traceDepth : ℤ) (geoms : List Geom) (triangles : ℤ → Triangle)
    (materials : ℤ → Material) (iter : ℕ) (image : ℤ → Vec3) : ℤ → Vec3 :=
  finalGather
    (depthRounds ambient scatter iter geoms triangles materials
      (pathtraceRounds traceDepth) (genPaths cam iter traceDepth))
    (cam.resolutionX * cam.resolutionY).toNat image

/-- `N` sequential iterations starting from a given accumulation image,
iteration indices running `1..N` as in the render loop. -/
def pathtraceN (ambient : Bool) (scatter : Scatter) (cam : Camera)
    (traceDepth : ℤ) (geoms : List Geom) (triangles : ℤ → Triangle)
    (materials : ℤ → Material) : ℕ → (ℤ → Vec3) → (ℤ → Vec3)
  | 0, image => image
  | n + 1, image =>
      pathtraceIteration ambient scatter cam traceDepth geoms triangles materials
        (n + 1) (pathtraceN ambient scatter cam traceDepth geoms triangles materials n image)

/-- Sum of the colours of the paths among `0..n-1` owning pixel `p` — the
total `finalGather` adds at `p`. -/
def gatherSum (paths : ℕ → PathSegment) (p : ℤ) : ℕ → Vec3
  | 0 => 0
  | k + 1 => gatherSum paths p k +
      (if (paths k).pixelIndex = p then (paths k).color else 0)

end

noncomputable section

theorem shadeBSDFMaterial_inactive (ambient : Bool) (scatter : Scatter) (iter idx : ℕ)
    (materials : ℤ → Material) (intersection : ShadeableIntersection) (seg : PathSegment)
    (h : seg.remainingBounces ≤ 0) :
    shadeBSDFMaterial ambient scatter iter idx materials intersection seg = seg := by
  unfold shadeBSDFMaterial
  rw [if_pos h]

theorem shadeBSDFMaterial_miss (ambient : Bool) (scatter : Scatter) (iter idx : ℕ)
    (materials : ℤ → Material) (intersection : ShadeableIntersection) (seg : PathSegment)
    (hact : 0 < seg.remainingBounces) (hmiss : intersection.t ≤ 0) :
    shadeBSDFMaterial ambient scatter iter idx materials intersection seg =
      { seg with color := (if ambient then seg.color * skyColor seg.ray.direction else 0)
                 remainingBounces := 0 } := by
  unfold shadeBSDFMaterial
  rw [if_neg (not_le.mpr hact), if_neg (not_lt.mpr hmiss)]

theorem shadeBSDFMaterial_emissive (ambient : Bool) (scatter : Scatter) (iter idx : ℕ)
    (materials : ℤ → Material) (intersection : ShadeableIntersection) (seg : PathSegment)
    (hact : 0 < seg.remainingBounces) (hhit : 0 < intersection.t)
    (hem : 0 < (materials intersection.materialId).emittance) :
    shadeBSDFMaterial ambient scatter iter idx materials intersection seg =
      { seg with
          color := seg.color * (materials intersection.materialId).color.smul
            (materials intersection.materialId).emittance,
          remainingBounces := -1 } := by
  unfold shadeBSDFMaterial
  rw [if_neg (not_le.mpr hact), if_pos hhit]
  dsimp only
  rw [if_pos hem, if_pos hact.le]

theorem shadeBSDFMaterial_exhaust (ambient : Bool) (scatter : Scatter) (iter idx : ℕ)
    (materials : ℤ → Material) (intersection : ShadeableIntersection) (seg : PathSegment)
    (hact : 0 < seg.remainingBounces) (hhit : 0 < intersection.t)
    (hnonem : ¬ 0 < (materials intersection.materialId).emittance)
    (hexh : (scatter seg intersection.point intersection.surfaceNormal
        (materials intersection.materialId) (shadeRngSeed iter idx seg)).remainingBounces
        - 1 ≤ 0) :
    shadeBSDFMaterial ambient scatter iter idx materials intersection seg =
      (let seg1 := scatter seg intersection.point intersection.surfaceNormal
          (materials intersection.materialId) (shadeRngSeed iter idx seg)
       { seg1 with
          remainingBounces := seg1.remainingBounces - 1
          color := if ambient then
              seg1.color * skyColor seg1.ray.direction
            else 0 }) := by
  unfold shadeBSDFMaterial
  rw [if_neg (not_le.mpr hact), if_pos hhit]
  dsimp only
  rw [if_neg hnonem, if_pos hexh]

theorem shadeBSDFMaterial_scatter (ambient : Bool) (scatter : Scatter) (iter idx : ℕ)
    (materials : ℤ → Material) (intersection : ShadeableIntersection) (seg : PathSegment)
    (hact : 0 < seg.remainingBounces) (hhit : 0 < intersection.t)
    (hnonem : ¬ 0 < (materials intersection.materialId).emittance)
    (hcont : ¬ (scatter seg intersection.point intersection.surfaceNormal
        (materials intersection.materialId) (shadeRngSeed iter idx seg)).remainingBounces
        - 1 ≤ 0) :
    shadeBSDFMaterial ambient scatter iter idx materials intersection seg =
      (let seg1 := scatter seg intersection.point intersection.surfaceNormal
          (materials intersection.materialId) (shadeRngSeed iter idx seg)
       { seg1 with remainingBounces := seg1.remainingBounces - 1 }) := by
  unfold shadeBSDFMaterial
  rw [if_neg (not_le.mpr hact), if_pos hhit]
  dsimp only
  rw [if_neg hnonem, if_neg hcont]

theorem depthRounds_inactive (ambient : Bool) (scatter : Scatter) (iter : ℕ)
    (geoms : List Geom) (triangles : ℤ → Triangle) (materials : ℤ → Material) :
    ∀ (k : ℕ) (paths : ℕ → PathSegment) (idx : ℕ),
      (paths idx).remainingBounces ≤ 0 →
      depthRounds ambient scatter iter geoms triangles materials k paths idx = paths idx := by
  intro k
  induction k with
  | zero =>
    intro paths idx _
    rfl
  | succ k ih =>
    intro paths idx h
    have hstep : depthRound ambient scatter iter geoms triangles materials paths idx =
        paths idx :=
      shadeBSDFMaterial_inactive _ _ _ _ _ _ _ h
    show depthRounds ambient scatter iter geoms triangles materials k
      (depthRound ambient scatter iter geoms triangles materials paths) idx = paths idx
    rw [ih (depthRound ambient scatter iter geoms triangles materials paths) idx
      (by rw [hstep]; exact h), hstep]

theorem shadeBSDFMaterial_pixel (ambient : Bool) (scatter : Scatter) (iter idx : ℕ)
    (materials : ℤ → Material) (intersection : ShadeableIntersection) (seg : PathSegment)
    (hsc : ∀ s pt nn m rng, (scatter s pt nn m rng).pixelIndex = s.pixelIndex) :
    (shadeBSDFMaterial ambient scatter iter idx materials intersection seg).pixelIndex =
      seg.pixelIndex := by
  unfold shadeBSDFMaterial
  dsimp only
  split_ifs <;> simp [hsc]

theorem shade_active_rb (ambient : Bool) (scatter : Scatter) (iter idx : ℕ)
    (materials : ℤ → Material) (intersection : ShadeableIntersection) (seg : PathSegment)
    (hsc : ∀ s pt nn m rng, (scatter s pt nn m rng).remainingBounces = s.remainingBounces)
    (h : 0 < (shadeBSDFMaterial ambient scatter iter idx materials
      intersection seg).remainingBounces) :
    (shadeBSDFMaterial ambient scatter iter idx materials
        intersection seg).remainingBounces = seg.remainingBounces - 1 ∧
      0 < seg.remainingBounces := by
  unfold shadeBSDFMaterial at h ⊢
  dsimp only at h ⊢
  by_cases h1 : seg.remainingBounces ≤ 0
  · rw [if_pos h1] at h
    omega
  · rw [if_neg h1] at h ⊢
    by_cases h2 : 0 < intersection.t
    · rw [if_pos h2] at h ⊢
      by_cases h3 : 0 < (materials intersection.materialId).emittance
      · rw [if_pos h3] at h ⊢
        by_cases h4 : 0 ≤ seg.remainingBounces
        · rw [if_pos h4] at h
          dsimp only at h
          omega
        · omega
      · rw [if_neg h3] at h ⊢
        by_cases h5 : (scatter seg intersection.point intersection.surfaceNormal
            (materials intersection.materialId)
            (shadeRngSeed iter idx seg)).remainingBounces - 1 ≤ 0
        · rw [if_pos h5] at h
          dsimp only at h
          omega
        · rw [if_neg h5]
          refine ⟨?_, by omega⟩
          show (scatter seg intersection.point intersection.surfaceNormal
            (materials intersection.materialId)
            (shadeRngSeed iter idx seg)).remainingBounces - 1 = seg.remainingBounces - 1
          rw [hsc]
    · rw [if_neg h2] at h
      dsimp only at h
      omega

theorem depthRounds_active_rb (ambient : Bool) (scatter : Scatter) (iter : ℕ)
    (geoms : List Geom) (triangles : ℤ → Triangle) (materials : ℤ → Material)
    (hsc : ∀ s pt nn m rng, (scatter s pt nn m rng).remainingBounces = s.remainingBounces) :
    ∀ (k : ℕ) (c : ℤ) (paths : ℕ → PathSegment),
      (∀ j, 0 < (paths j).remainingBounces → (paths j).remainingBounces = c) →
      ∀ idx, 0 < (depthRounds ambient scatter iter geoms triangles materials
          k paths idx).remainingBounces →
        (depthRounds ambient scatter iter geoms triangles materials
          k paths idx).remainingBounces = c - k := by
  intro k
  induction k with
  | zero =>
    intro c paths hc idx hact
    simpa using hc idx hact
  | succ k ih =>
    intro c paths hc idx hact
    have hstep : ∀ j, 0 < (depthRound ambient scatter iter geoms triangles materials
        paths j).remainingBounces →
        (depthRound ambient scatter iter geoms triangles materials
          paths j).remainingBounces = c - 1 := by
      intro j hj
      obtain ⟨hrb, hpos⟩ := shade_active_rb ambient scatter iter j materials
        (computeIntersections geoms triangles (paths j)) (paths j) hsc hj
      show (shadeBSDFMaterial ambient scatter iter j materials
        (computeIntersections geoms triangles (paths j)) (paths j)).remainingBounces = c - 1
      rw [hrb, hc j hpos]
    have hk := ih (c - 1)
      (depthRound ambient scatter iter geoms triangles materials paths) hstep idx hact
    show (depthRounds ambient scatter iter geoms triangles materials k
      (depthRound ambient scatter iter geoms triangles materials paths)
        idx).remainingBounces = c - (k + 1 : ℕ)
    rw [hk]
    push_cast
    ring

theorem finalGather_spec (paths : ℕ → PathSegment) (image : ℤ → Vec3) (p : ℤ) :
    ∀ n, finalGather paths n image p = image p + gatherSum paths p n := by
  intro n
  induction n with
  | zero => simp [finalGather, gatherSum]
  | succ k ih =>
    unfold finalGather at ih ⊢
    rw [List.range_succ, List.foldl_append]
    simp only [gatherSum, List.foldl_cons, List.foldl_nil]
    by_cases hp : p = (paths k).pixelIndex
    · rw [if_pos hp, ih, if_pos hp.symm, add_assoc]
    · rw [if_neg hp, ih, if_neg (fun h => hp h.symm), add_zero]

theorem gatherSum_zero_of (paths : ℕ → PathSegment) (p : ℤ) (n : ℕ)
    (h : ∀ idx, idx < n → (paths idx).pixelIndex ≠ p) : gatherSum paths p n = 0 := by
  induction n with
  | zero => rfl
  | succ k ih =>
    simp only [gatherSum]
    rw [ih (fun idx hidx => h idx (Nat.lt_succ_of_lt hidx)),
      if_neg (h k (Nat.lt_succ_self k)), add_zero]

theorem gatherSum_unique (paths : ℕ → PathSegment) :
    ∀ (n p : ℕ), p < n →
      (∀ idx, idx < n → (paths idx).pixelIndex = (idx : ℤ)) →
      gatherSum paths (p : ℤ) n = (paths p).color := by
  intro n
  induction n with
  | zero =>
    intro p hp
    omega
  | succ k ih =>
    intro p hp hpix
    simp only [gatherSum]
    rcases Nat.lt_succ_iff_lt_or_eq.mp hp with hlt | rfl
    · rw [ih p hlt (fun idx hidx => hpix idx (Nat.lt_succ_of_lt hidx)),
        if_neg, add_zero]
      rw [hpix k (Nat.lt_succ_self k)]
      intro hh
      have : k = p := by exact_mod_cast hh
      omega
    · rw [gatherSum_zero_of _ _ _ ?hzero, if_pos (hpix p (Nat.lt_succ_self _)), zero_add]
      case hzero =>
        intro idx hidx
        rw [hpix idx (Nat.lt_succ_of_lt hidx)]
        intro hh
        have : idx = p := by exact_mod_cast hh
        omega

theorem depthRounds_pixel (ambient : Bool) (scatter : Scatter) (iter : ℕ)
    (geoms : List Geom) (triangles : ℤ → Triangle) (materials : ℤ → Material)
    (hsc : ∀ s pt nn m rng, (scatter s pt nn m rng).pixelIndex = s.pixelIndex) :
    ∀ (k : ℕ) (paths : ℕ → PathSegment) (idx : ℕ),
      (depthRounds ambient scatter iter geoms triangles materials
        k paths idx).pixelIndex = (paths idx).pixelIndex := by
  intro k
  induction k with
  | zero =>
    intro paths idx
    rfl
  | succ k ih =>
    intro paths idx
    show (depthRounds ambient scatter iter geoms triangles materials k
      (depthRound ambient scatter iter geoms triangles materials paths) idx).pixelIndex = _
    rw [ih]
    exact shadeBSDFMaterial_pixel _ _ _ _ _ _ _ hsc

theorem genPaths_pixel (cam : Camera) (iter : ℕ) (traceDepth : ℤ) (idx : ℕ) :
    (genPaths cam iter traceDepth idx).pixelIndex = (idx : ℤ) := by
  unfold genPaths generateRayFromCamera
  dsimp only
  rw [mul_comm]
  exact Int.emod_add_ediv (idx : ℤ) cam.resolutionX

theorem computeIntersections_empty (triangles : ℤ → Triangle) (seg : PathSegment) :
    computeIntersections [] triangles seg = ⟨-1, 0, 0, 0⟩ := rfl

theorem computeIntersections_single (g : Geom) (triangles : ℤ → Triangle)
    (seg : PathSegment) (h1 : 0 < (geomIntersect triangles g seg.ray).1)
    (h2 : (geomIntersect triangles g seg.ray).1 < fltMax) :
    computeIntersections [g] triangles seg =
      ⟨(geomIntersect triangles g seg.ray).1, g.materialid,
       (geomIntersect triangles g seg.ray).2.2,
       (geomIntersect triangles g seg.ray).2.1⟩ := by
  unfold computeIntersections
  simp only [minPosFold]
  rw [if_pos ⟨h1, h2⟩]

theorem vec_one_mul (v : Vec3) : (⟨1, 1, 1⟩ : Vec3) * v = v := by
  ext <;> simp

end

noncomputable section

/-- Claim C10: a path segment whose remaining-bounce counter is `≤ 0` at
the start of a shading step is left entirely unchanged by that step —
colour, ray, pixel index and counter all keep their values — and hence a
terminated path survives unmodified through any number of further depth
rounds until final gather, with compaction disabled. -/
theorem C10_terminated_frozen :
    (∀ (ambient : Bool) (scatter : Scatter) (iter idx : ℕ) (materials : ℤ → Material)
       (intersection : ShadeableIntersection) (seg : PathSegment),
      seg.remainingBounces ≤ 0 →
      shadeBSDFMaterial ambient scatter iter idx materials intersection seg = seg) ∧
    (∀ (ambient : Bool) (scatter : Scatter) (iter : ℕ) (geoms : List Geom)
       (triangles : ℤ → Triangle) (materials : ℤ → Material) (k : ℕ)
       (paths : ℕ → PathSegment) (idx : ℕ),
      (paths idx).remainingBounces ≤ 0 →
      depthRounds ambient scatter iter geoms triangles materials k paths idx = paths idx) :=
  ⟨shadeBSDFMaterial_inactive,
   fun a s i g t m k p idx h => depthRounds_inactive a s i g t m k p idx h⟩

/-- Identity scatter routine used in witnesses. -/
def scatter0 : Scatter := fun s _ _ _ _ => s

/-- Concrete intersection record used in witnesses. -/
def isect0 : ShadeableIntersection := ⟨1, 0, 0, 0⟩

/-- Concrete material table used in witnesses. -/
def mats0 : ℤ → Material := fun _ => ⟨⟨1, 1, 1⟩, 0⟩

/-- Concrete already-terminated segment. -/
def segT : PathSegment := ⟨rayS, ⟨1, 1, 1⟩, 0, 0⟩

/-- Witness for claim C10 at a concrete terminated segment: one shading
step and five further depth rounds leave it unchanged. -/
theorem C10_terminated_frozen_witness :
    segT.remainingBounces ≤ 0 ∧
    shadeBSDFMaterial true scatter0 1 0 mats0 isect0 segT = segT ∧
    depthRounds true scatter0 1 [] trisW mats0 5 (fun _ => segT) 0 = segT := by
  have h : segT.remainingBounces ≤ 0 := by
    show (0:ℤ) ≤ 0
    norm_num
  exact ⟨h, C10_terminated_frozen.1 true scatter0 1 0 mats0 isect0 segT h,
    C10_terminated_frozen.2 true scatter0 1 [] trisW mats0 5 (fun _ => segT) 0 h⟩

/-- Claim C3: an emissive hit multiplies the path colour by
`material colour * emittance` and forces the counter to the terminal
sentinel `-1`; a path carrying the sentinel is never shaded again; and in
the end-to-end scenario of a single emissive sphere (`emittance 5`, white)
filling the view, ambient off and max depth 1, every pixel's
single-iteration colour is `(5, 5, 5)` for every iteration index. -/
theorem C3_emissive_terminates :
    (∀ (ambient : Bool) (scatter : Scatter) (iter idx : ℕ) (materials : ℤ → Material)
       (intersection : ShadeableIntersection) (seg : PathSegment),
      0 < seg.remainingBounces → 0 < intersection.t →
      0 < (materials intersection.materialId).emittance →
      shadeBSDFMaterial ambient scatter iter idx materials intersection seg =
        { seg with
            color := seg.color * (materials intersection.materialId).color.smul
              (materials intersection.materialId).emittance,
            remainingBounces := -1 }) ∧
    (∀ (ambient : Bool) (scatter : Scatter) (iter idx : ℕ) (materials : ℤ → Material)
       (intersection : ShadeableIntersection) (seg : PathSegment),
      seg.remainingBounces = -1 →
      shadeBSDFMaterial ambient scatter iter idx materials intersection seg = seg) ∧
    (∀ (scatter : Scatter) (cam : Camera) (g : Geom) (triangles : ℤ → Triangle)
       (materials : ℤ → Material) (iter : ℕ),
      g.type = GeomType.SPHERE →
      materials g.materialid = ⟨⟨1, 1, 1⟩, 5⟩ →
      (∀ idx : ℕ, idx < (cam.resolutionX * cam.resolutionY).toNat →
        0 < (sphereIntersectionTest g (genPaths cam iter 1 idx).ray).1 ∧
        (sphereIntersectionTest g (genPaths cam iter 1 idx).ray).1 < fltMax) →
      ∀ p : ℕ, p < (cam.resolutionX * cam.resolutionY).toNat →
        pathtraceIteration false scatter cam 1 [g] triangles materials iter
          (fun _ => 0) (p : ℤ) = ⟨5, 5, 5⟩) := by
  refine ⟨shadeBSDFMaterial_emissive, ?_, ?_⟩
  · intro ambient scatter iter idx materials intersection seg h
    exact shadeBSDFMaterial_inactive ambient scatter iter idx materials intersection seg
      (by rw [h]; norm_num)
  · intro scatter cam g triangles materials iter hg hmat hhit p hp
    have hfinal : ∀ idx, idx < (cam.resolutionX * cam.resolutionY).toNat →
        depthRound false scatter iter [g] triangles materials (genPaths cam iter 1) idx =
        { genPaths cam iter 1 idx with color := ⟨5, 5, 5⟩, remainingBounces := -1 } := by
      intro idx hidx
      have hgi : geomIntersect triangles g (genPaths cam iter 1 idx).ray =
          sphereIntersectionTest g (genPaths cam iter 1 idx).ray := by
        unfold geomIntersect
        rw [hg]
      obtain ⟨hpos, hlt⟩ := hhit idx hidx
      have hci := computeIntersections_single g triangles (genPaths cam iter 1 idx)
        (by rw [hgi]; exact hpos) (by rw [hgi]; exact hlt)
      show shadeBSDFMaterial false scatter iter idx materials
        (computeIntersections [g] triangles (genPaths cam iter 1 idx))
        (genPaths cam iter 1 idx) = _
      rw [hci]
      rw [shadeBSDFMaterial_emissive false scatter iter idx materials _ _
        (show (0:ℤ) < 1 by norm_num)
        (by show 0 < (geomIntersect triangles g (genPaths cam iter 1 idx).ray).1
            rw [hgi]; exact hpos)
        (by show 0 < (materials g.materialid).emittance
            rw [hmat]; norm_num)]
      show ({ genPaths cam iter 1 idx with
          color := (genPaths cam iter 1 idx).color * (materials g.materialid).color.smul
            (materials g.materialid).emittance,
          remainingBounces := -1 } : PathSegment) = _
      rw [hmat]
      have hcol : (genPaths cam iter 1 idx).color * (⟨⟨1, 1, 1⟩, 5⟩ : Material).color.smul
          (⟨⟨1, 1, 1⟩, 5⟩ : Material).emittance = (⟨5, 5, 5⟩ : Vec3) := by
        show (⟨1, 1, 1⟩ : Vec3) * (⟨1, 1, 1⟩ : Vec3).smul (5:ℝ) = (⟨5, 5, 5⟩ : Vec3)
        unfold Vec3.smul
        ext <;> norm_num
      rw [hcol]
    have hpix : ∀ idx, idx < (cam.resolutionX * cam.resolutionY).toNat →
        (depthRound false scatter iter [g] triangles materials
          (genPaths cam iter 1) idx).pixelIndex = (idx : ℤ) := by
      intro idx hidx
      rw [hfinal idx hidx]
      show (genPaths cam iter 1 idx).pixelIndex = (idx : ℤ)
      exact genPaths_pixel cam iter 1 idx
    show finalGather (depthRounds false scatter iter [g] triangles materials
        (pathtraceRounds 1) (genPaths cam iter 1))
      (cam.resolutionX * cam.resolutionY).toNat (fun _ => 0) (p : ℤ) = ⟨5, 5, 5⟩
    have hr : depthRounds false scatter iter [g] triangles materials
        (pathtraceRounds 1) (genPaths cam iter 1) =
        depthRound false scatter iter [g] triangles materials (genPaths cam iter 1) := rfl
    rw [hr, finalGather_spec, gatherSum_unique _ _ p hp hpix, hfinal p hp]
    show (0 : Vec3) + ⟨5, 5, 5⟩ = ⟨5, 5, 5⟩
    rw [zero_add]

end

noncomputable section

theorem vec_sub_zero (v : Vec3) : v - 0 = v := by
  ext <;> simp

theorem vec_smul_zero (v : Vec3) : v.smul 0 = 0 := by
  unfold Vec3.smul
  ext <;> simp

/-- Concrete 1-by-1 camera looking down `-z` from `(0, 0, 2)` with zero
pixel extent, so every pixel's primary ray is `rayS`. -/
def camW : Camera := ⟨1, 1, ⟨0, 0, 2⟩, ⟨0, 0, -1⟩, ⟨0, 1, 0⟩, ⟨1, 0, 0⟩, 0, 0⟩

/-- Material table holding the white emissive (`emittance 5`) material. -/
def matsE : ℤ → Material := fun _ => ⟨⟨1, 1, 1⟩, 5⟩

theorem camW_ray (iter : ℕ) (T : ℤ) (idx : ℕ) :
    (genPaths camW iter T idx).ray = rayS := by
  unfold genPaths generateRayFromCamera rayS
  dsimp only
  congr 1
  rw [show camW.pixelLengthX = 0 from rfl, show camW.pixelLengthY = 0 from rfl,
    zero_mul, zero_mul, vec_smul_zero, vec_smul_zero, vec_sub_zero, vec_sub_zero]
  exact rayS_dir_normalize

/-- Witness for claim C3: with the one-sphere emissive scene, the
1-by-1 camera and iteration 1, the hypotheses hold and pixel 0 receives
colour `(5, 5, 5)`. -/
theorem C3_emissive_terminates_witness :
    sphereW.type = GeomType.SPHERE ∧
    matsE sphereW.materialid = ⟨⟨1, 1, 1⟩, 5⟩ ∧
    (∀ idx : ℕ, idx < (camW.resolutionX * camW.resolutionY).toNat →
      0 < (sphereIntersectionTest sphereW (genPaths camW 1 1 idx).ray).1 ∧
      (sphereIntersectionTest sphereW (genPaths camW 1 1 idx).ray).1 < fltMax) ∧
    pathtraceIteration false scatter0 camW 1 [sphereW] trisW matsE 1
      (fun _ => 0) ((0:ℕ) : ℤ) = ⟨5, 5, 5⟩ := by
  have hhit : ∀ idx : ℕ, idx < (camW.resolutionX * camW.resolutionY).toNat →
      0 < (sphereIntersectionTest sphereW (genPaths camW 1 1 idx).ray).1 ∧
      (sphereIntersectionTest sphereW (genPaths camW 1 1 idx).ray).1 < fltMax := by
    intro idx _
    rw [camW_ray 1 1 idx, sphereW_eval, sphereW_result_fst]
    constructor
    · norm_num
    · norm_num [fltMax]
  refine ⟨rfl, rfl, hhit, ?_⟩
  exact C3_emissive_terminates.2.2 scatter0 camW sphereW trisW matsE 1 rfl rfl hhit 0
    (by show (0:ℕ) < ((1:ℤ) * 1).toNat; norm_num)

end

noncomputable section

/-- Claim C7: a miss multiplies the active path's colour by the vertical
sky gradient when ambient lighting is enabled (else zeroes it) and forces
the counter to `0`; a non-emissive hit whose decrement exhausts the
counter receives the same ambient-sky multiplication instead of further
shading; and an empty scene with ambient lighting on yields the fixed
vertical-gradient image, identical across iteration indices (the
right-hand side is pinned to iteration 0). -/
theorem C7_miss_ambient_sky :
    (∀ (ambient : Bool) (scatter : Scatter) (iter idx : ℕ) (materials : ℤ → Material)
       (intersection : ShadeableIntersection) (seg : PathSegment),
      0 < seg.remainingBounces → intersection.t ≤ 0 →
      shadeBSDFMaterial ambient scatter iter idx materials intersection seg =
        { seg with
            color := (if ambient then seg.color * skyColor seg.ray.direction else 0),
            remainingBounces := 0 }) ∧
    (∀ (ambient : Bool) (scatter : Scatter) (iter idx : ℕ) (materials : ℤ → Material)
       (intersection : ShadeableIntersection) (seg : PathSegment),
      0 < seg.remainingBounces → 0 < intersection.t →
      ¬ 0 < (materials intersection.materialId).emittance →
      (scatter seg intersection.point intersection.surfaceNormal
        (materials intersection.materialId) (shadeRngSeed iter idx seg)).remainingBounces
        - 1 ≤ 0 →
      shadeBSDFMaterial ambient scatter iter idx materials intersection seg =
        (let seg1 := scatter seg intersection.point intersection.surfaceNormal
            (materials intersection.materialId) (shadeRngSeed iter idx seg)
         { seg1 with
            remainingBounces := seg1.remainingBounces - 1
            color := if ambient then
                seg1.color * skyColor seg1.ray.direction
              else 0 })) ∧
    (∀ (scatter : Scatter) (cam : Camera) (T : ℤ) (triangles : ℤ → Triangle)
       (materials : ℤ → Material) (iter : ℕ), 0 < T →
      ∀ p : ℕ, p < (cam.resolutionX * cam.resolutionY).toNat →
        pathtraceIteration true scatter cam T [] triangles materials iter
          (fun _ => 0) (p : ℤ) = skyColor ((genPaths cam 0 T p).ray.direction)) := by
  refine ⟨shadeBSDFMaterial_miss, shadeBSDFMaterial_exhaust, ?_⟩
  intro scatter cam T triangles materials iter hT p hp
  have hround1 : ∀ idx, depthRound true scatter iter [] triangles materials
      (genPaths cam iter T) idx =
      { genPaths cam iter T idx with
          color := (genPaths cam iter T idx).color *
            skyColor (genPaths cam iter T idx).ray.direction,
          remainingBounces := 0 } := by
    intro idx
    show shadeBSDFMaterial true scatter iter idx materials
      (computeIntersections [] triangles (genPaths cam iter T idx))
      (genPaths cam iter T idx) = _
    rw [computeIntersections_empty,
      shadeBSDFMaterial_miss true scatter iter idx materials _ _
        (show 0 < (genPaths cam iter T idx).remainingBounces from hT)
        (show ((⟨-1, 0, 0, 0⟩ : ShadeableIntersection)).t ≤ 0 by norm_num)]
    rw [if_pos rfl]
  have hfull : ∀ idx, depthRounds true scatter iter [] triangles materials
      (pathtraceRounds T) (genPaths cam iter T) idx =
      { genPaths cam iter T idx with
          color := (genPaths cam iter T idx).color *
            skyColor (genPaths cam iter T idx).ray.direction,
          remainingBounces := 0 } := by
    intro idx
    have hm : pathtraceRounds T = (pathtraceRounds T - 1) + 1 := by
      unfold pathtraceRounds
      omega
    rw [hm]
    show depthRounds true scatter iter [] triangles materials (pathtraceRounds T - 1)
      (depthRound true scatter iter [] triangles materials (genPaths cam iter T)) idx = _
    rw [depthRounds_inactive true scatter iter [] triangles materials
      (pathtraceRounds T - 1) _ idx (by rw [hround1 idx])]
    exact hround1 idx
  have hpix : ∀ idx, idx < (cam.resolutionX * cam.resolutionY).toNat →
      (depthRounds true scatter iter [] triangles materials (pathtraceRounds T)
        (genPaths cam iter T) idx).pixelIndex = (idx : ℤ) := by
    intro idx _
    rw [hfull idx]
    show (genPaths cam iter T idx).pixelIndex = (idx : ℤ)
    exact genPaths_pixel cam iter T idx
  show finalGather (depthRounds true scatter iter [] triangles materials
      (pathtraceRounds T) (genPaths cam iter T))
    (cam.resolutionX * cam.resolutionY).toNat (fun _ => 0) (p : ℤ) =
    skyColor ((genPaths cam 0 T p).ray.direction)
  rw [finalGather_spec, gatherSum_unique _ _ p hp hpix, hfull p]
  show (0 : Vec3) + (genPaths cam iter T p).color *
    skyColor (genPaths cam iter T p).ray.direction = _
  rw [zero_add]
  show (⟨1, 1, 1⟩ : Vec3) * skyColor (genPaths cam iter T p).ray.direction = _
  rw [vec_one_mul]
  rfl

/-- Witness for claim C7 on the empty scene with the concrete 1-by-1
camera: depth 2 and pixel 0 satisfy the hypotheses, and the pixel value
is the sky gradient of its generated ray. -/
theorem C7_miss_ambient_sky_witness :
    (0:ℤ) < 2 ∧
    pathtraceIteration true scatter0 camW 2 [] trisW mats0 1
      (fun _ => 0) ((0:ℕ) : ℤ) = skyColor ((genPaths camW 0 2 0).ray.direction) := by
  refine ⟨by norm_num, ?_⟩
  exact C7_miss_ambient_sky.2.2 scatter0 camW 2 trisW mats0 1 (by norm_num) 0
    (by show (0:ℕ) < ((1:ℤ) * 1).toNat; norm_num)

end

noncomputable section

theorem pathtraceIteration_add (ambient : Bool) (scatter : Scatter) (cam : Camera)
    (T : ℤ) (geoms : List Geom) (triangles : ℤ → Triangle) (materials : ℤ → Material)
    (iter : ℕ) (image : ℤ → Vec3) (p : ℤ) :
    pathtraceIteration ambient scatter cam T geoms triangles materials iter image p =
      image p +
        pathtraceIteration ambient scatter cam T geoms triangles materials iter
          (fun _ => 0) p := by
  unfold pathtraceIteration
  rw [finalGather_spec, finalGather_spec]
  show image p + _ = image p + ((0 : Vec3) + _)
  rw [zero_add]

theorem iteration_owner (ambient : Bool) (scatter : Scatter) (cam : Camera)
    (T : ℤ) (geoms : List Geom) (triangles : ℤ → Triangle) (materials : ℤ → Material)
    (hsc : ∀ s pt nn m rng, (scatter s pt nn m rng).pixelIndex = s.pixelIndex)
    (iter : ℕ) (p : ℕ) (hp : p < (cam.resolutionX * cam.resolutionY).toNat) :
    pathtraceIteration ambient scatter cam T geoms triangles materials iter
      (fun _ => 0) (p : ℤ) =
      (depthRounds ambient scatter iter geoms triangles materials
        (pathtraceRounds T) (genPaths cam iter T) p).color := by
  unfold pathtraceIteration
  rw [finalGather_spec, gatherSum_unique _ _ p hp (fun idx _ => by
    rw [depthRounds_pixel ambient scatter iter geoms triangles materials hsc]
    exact genPaths_pixel cam iter T idx)]
  show (0 : Vec3) + _ = _
  rw [zero_add]

/-- Claim C9: `finalGather` only adds each path's colour at its owning
pixel index; after `N` iterations from the cleared image, pixel `p` holds
the sum over iterations `1..N` of the final colour of the path owning
`p`; and rendering two iterations equals rendering each independently and
adding the images pixel-by-pixel. -/
theorem C9_accumulation (ambient : Bool) (scatter : Scatter) (cam : Camera) (T : ℤ)
    (geoms : List Geom) (triangles : ℤ → Triangle) (materials : ℤ → Material)
    (hsc : ∀ s pt nn m rng, (scatter s pt nn m rng).pixelIndex = s.pixelIndex) :
    (∀ (paths : ℕ → PathSegment) (n : ℕ) (image : ℤ → Vec3) (p : ℤ),
      finalGather paths n image p = image p + gatherSum paths p n) ∧
    (∀ (N : ℕ) (p : ℕ), p < (cam.resolutionX * cam.resolutionY).toNat →
      pathtraceN ambient scatter cam T geoms triangles materials N (fun _ => 0) (p : ℤ) =
        Finset.sum (Finset.range N) (fun k =>
          (depthRounds ambient scatter (k + 1) geoms triangles materials
            (pathtraceRounds T) (genPaths cam (k + 1) T) p).color)) ∧
    (∀ p : ℤ,
      pathtraceN ambient scatter cam T geoms triangles materials 2 (fun _ => 0) p =
        pathtraceIteration ambient scatter cam T geoms triangles materials 1
          (fun _ => 0) p +
        pathtraceIteration ambient scatter cam T geoms triangles materials 2
          (fun _ => 0) p) := by
  refine ⟨fun paths n image p => finalGather_spec paths image p n, ?_, ?_⟩
  · intro N
    induction N with
    | zero =>
      intro p _
      show (0 : Vec3) = _
      rw [Finset.sum_range_zero]
    | succ N ih =>
      intro p hp
      show pathtraceIteration ambient scatter cam T geoms triangles materials (N + 1)
        (pathtraceN ambient scatter cam T geoms triangles materials N (fun _ => 0))
        (p : ℤ) = _
      rw [pathtraceIteration_add, ih p hp,
        iteration_owner ambient scatter cam T geoms triangles materials hsc (N + 1) p hp,
        Finset.sum_range_succ]
  · intro p
    show pathtraceIteration ambient scatter cam T geoms triangles materials 2
      (pathtraceIteration ambient scatter cam T geoms triangles materials 1
        (fun _ => 0)) p = _
    rw [pathtraceIteration_add ambient scatter cam T geoms triangles materials 2]

/-- Witness for claim C9 with the identity scatter (which preserves the
pixel index) on the concrete empty scene: the two-iteration image at
pixel 0 splits into the two independent single-iteration images. -/
theorem C9_accumulation_witness :
    (∀ s pt nn m rng, (scatter0 s pt nn m rng).pixelIndex = s.pixelIndex) ∧
    pathtraceN true scatter0 camW 2 [] trisW mats0 2 (fun _ => 0) 0 =
      pathtraceIteration true scatter0 camW 2 [] trisW mats0 1 (fun _ => 0) 0 +
      pathtraceIteration true scatter0 camW 2 [] trisW mats0 2 (fun _ => 0) 0 := by
  have hsc : ∀ s pt nn m rng, (scatter0 s pt nn m rng).pixelIndex = s.pixelIndex :=
    fun _ _ _ _ _ => rfl
  exact ⟨hsc, (C9_accumulation true scatter0 camW 2 [] trisW mats0 hsc).2.2 0⟩

end

noncomputable section

/-- Claim C2 (amended): the engine seed is a fixed pure function of
(iteration index, path index, remaining-bounce count); since an active
path's remaining-bounce count at bounce depth `k` equals
`maxTraceDepth - k`, any two runs sharing the same max trace depth seed
identically at equal (iteration, path index, depth) triples — but the
third hash input is the remaining-bounce count, not the depth itself. -/
theorem C2_seed_remaining_bounces :
    (∀ i1 p1 d1 i2 p2 d2 : ℕ, i1 = i2 → p1 = p2 → d1 = d2 →
      makeSeededRandomEngine i1 p1 d1 = makeSeededRandomEngine i2 p2 d2) ∧
    (∀ (ambient1 ambient2 : Bool) (scatter1 scatter2 : Scatter)
       (cam1 cam2 : Camera) (geoms1 geoms2 : List Geom)
       (tris1 tris2 : ℤ → Triangle) (mats1 mats2 : ℤ → Material) (T : ℤ)
       (k iter idx : ℕ),
      (∀ s pt nn m rng, (scatter1 s pt nn m rng).remainingBounces = s.remainingBounces) →
      (∀ s pt nn m rng, (scatter2 s pt nn m rng).remainingBounces = s.remainingBounces) →
      0 < (depthRounds ambient1 scatter1 iter geoms1 tris1 mats1 k
        (genPaths cam1 iter T) idx).remainingBounces →
      0 < (depthRounds ambient2 scatter2 iter geoms2 tris2 mats2 k
        (genPaths cam2 iter T) idx).remainingBounces →
      shadeRngSeed iter idx (depthRounds ambient1 scatter1 iter geoms1 tris1 mats1 k
        (genPaths cam1 iter T) idx) =
          makeSeededRandomEngine iter idx (T - k).toNat ∧
      shadeRngSeed iter idx (depthRounds ambient2 scatter2 iter geoms2 tris2 mats2 k
        (genPaths cam2 iter T) idx) =
          makeSeededRandomEngine iter idx (T - k).toNat) := by
  constructor
  · intro i1 p1 d1 i2 p2 d2 hi hp hd
    rw [hi, hp, hd]
  · intro ambient1 ambient2 scatter1 scatter2 cam1 cam2 geoms1 geoms2 tris1 tris2
      mats1 mats2 T k iter idx hsc1 hsc2 hact1 hact2
    have hrb1 := depthRounds_active_rb ambient1 scatter1 iter geoms1 tris1 mats1 hsc1
      k T (genPaths cam1 iter T) (fun j _ => rfl) idx hact1
    have hrb2 := depthRounds_active_rb ambient2 scatter2 iter geoms2 tris2 mats2 hsc2
      k T (genPaths cam2 iter T) (fun j _ => rfl) idx hact2
    unfold shadeRngSeed
    rw [hrb1, hrb2]
    exact ⟨rfl, rfl⟩

/-- Claim C2 counterexample: two depth-0 shading invocations with equal
(iteration, path index, depth) = (1, 0, 0) triples but different
configured max trace depths (1 versus 2) seed the engine with different
values, because the third hash input is the remaining-bounce counter. -/
theorem C2_counterexample :
    (genPaths camW 1 1 0).remainingBounces = 1 ∧
    (genPaths camW 1 2 0).remainingBounces = 2 ∧
    shadeRngSeed 1 0 (genPaths camW 1 1 0) ≠ shadeRngSeed 1 0 (genPaths camW 1 2 0) := by
  refine ⟨rfl, rfl, ?_⟩
  show makeSeededRandomEngine 1 0 ((1:ℤ)).toNat ≠ makeSeededRandomEngine 1 0 ((2:ℤ)).toNat
  decide

/-- Second concrete camera for the two-run witness of claim C2. -/
def camW2 : Camera := ⟨1, 1, ⟨0, 0, 5⟩, ⟨0, 0, -1⟩, ⟨0, 1, 0⟩, ⟨1, 0, 0⟩, 0, 0⟩

/-- Witness for claim C2 (amended): two runs with different cameras,
scenes and ambient settings but the same max trace depth 3, both active
at depth 0, seed identically with `makeSeededRandomEngine 1 0 3`. -/
theorem C2_seed_remaining_bounces_witness :
    (∀ s pt nn m rng, (scatter0 s pt nn m rng).remainingBounces = s.remainingBounces) ∧
    0 < (depthRounds true scatter0 1 [] trisW mats0 0
      (genPaths camW 1 3) 0).remainingBounces ∧
    0 < (depthRounds false scatter0 1 [sphereW] trisW matsE 0
      (genPaths camW2 1 3) 0).remainingBounces ∧
    (shadeRngSeed 1 0 (depthRounds true scatter0 1 [] trisW mats0 0
        (genPaths camW 1 3) 0) = makeSeededRandomEngine 1 0 ((3:ℤ) - (0:ℕ)).toNat ∧
     shadeRngSeed 1 0 (depthRounds false scatter0 1 [sphereW] trisW matsE 0
        (genPaths camW2 1 3) 0) = makeSeededRandomEngine 1 0 ((3:ℤ) - (0:ℕ)).toNat) := by
  have hsc : ∀ s pt nn m rng, (scatter0 s pt nn m rng).remainingBounces =
      s.remainingBounces := fun _ _ _ _ _ => rfl
  have h1 : 0 < (depthRounds true scatter0 1 [] trisW mats0 0
      (genPaths camW 1 3) 0).remainingBounces := by
    show (0:ℤ) < 3
    norm_num
  have h2 : 0 < (depthRounds false scatter0 1 [sphereW] trisW matsE 0
      (genPaths camW2 1 3) 0).remainingBounces := by
    show (0:ℤ) < 3
    norm_num
  exact ⟨hsc, h1, h2, C2_seed_remaining_bounces.2 true false scatter0 scatter0 camW camW2
    [] [sphereW] trisW trisW mats0 matsE 3 0 1 0 hsc hsc h1 h2⟩

end

noncomputable section

/-- The predicate of `pathtrace`'s compaction call (struct `is_zero` in
`pathtrace.cu`): a path is kept (classified active) when its
remaining-bounce counter is positive. -/
def is_zero (p : PathSegment) : Bool := decide (p.remainingBounces > 0)

/-- `thrust::stable_partition` on a list, embedded from its documented
semantics: the elements satisfying the predicate first, then the rest,
each group keeping its original relative order. -/
def stablePartition (pred : PathSegment → Bool) (l : List PathSegment) :
    List PathSegment :=
  l.filter pred ++ l.filter (fun s => !(pred s))

theorem filter_self_filter (p : PathSegment → Bool) (l : List PathSegment) :
    (l.filter p).filter p = l.filter p := by
  induction l with
  | nil => rfl
  | cons a t ih => cases h : p a <;> simp [List.filter_cons, h, ih]

theorem filter_not_filter (p : PathSegment → Bool) (l : List PathSegment) :
    (l.filter (fun s => !(p s))).filter p = [] := by
  induction l with
  | nil => rfl
  | cons a t ih => cases h : p a <;> simp [List.filter_cons, h, ih]

theorem filter_pos_not (p : PathSegment → Bool) (l : List PathSegment) :
    (l.filter p).filter (fun s => !(p s)) = [] := by
  induction l with
  | nil => rfl
  | cons a t ih => cases h : p a <;> simp [List.filter_cons, h, ih]

theorem stablePartition_perm (pred : PathSegment → Bool) (l : List PathSegment) :
    List.Perm (stablePartition pred l) l :=
  List.filter_append_perm pred l

/-- Claim C8: compaction partitions the path array so that paths with
positive remaining bounces precede terminated ones, it is stable with
respect to the active/terminated classification, every path (in
particular every survivor) remains present exactly once, and compacting a
fully active or fully terminated array leaves it — and the active count —
unchanged. -/
theorem C8_compaction_stable_partition :
    (∀ l : List PathSegment, List.Perm (stablePartition is_zero l) l) ∧
    (∀ (l : List PathSegment) (seg : PathSegment),
      List.count seg (stablePartition is_zero l) = List.count seg l) ∧
    (∀ l : List PathSegment,
      (∀ s ∈ (stablePartition is_zero l).take (l.filter is_zero).length,
        is_zero s = true) ∧
      (∀ s ∈ (stablePartition is_zero l).drop (l.filter is_zero).length,
        is_zero s = false)) ∧
    (∀ l : List PathSegment,
      (stablePartition is_zero l).filter is_zero = l.filter is_zero ∧
      (stablePartition is_zero l).filter (fun s => !(is_zero s)) =
        l.filter (fun s => !(is_zero s))) ∧
    (∀ l : List PathSegment,
      (stablePartition is_zero l).countP is_zero = l.countP is_zero) ∧
    (∀ l : List PathSegment, (∀ s ∈ l, is_zero s = true) →
      stablePartition is_zero l = l) ∧
    (∀ l : List PathSegment, (∀ s ∈ l, is_zero s = false) →
      stablePartition is_zero l = l) := by
  refine ⟨stablePartition_perm is_zero, ?_, ?_, ?_, ?_, ?_, ?_⟩
  · intro l seg
    exact (stablePartition_perm is_zero l).count_eq seg
  · intro l
    constructor
    · intro s hs
      rw [stablePartition, List.take_left] at hs
      exact List.of_mem_filter hs
    · intro s hs
      rw [stablePartition, List.drop_left] at hs
      have := List.of_mem_filter hs
      simpa using this
  · intro l
    constructor
    · rw [stablePartition, List.filter_append, filter_self_filter, filter_not_filter,
        List.append_nil]
    · rw [stablePartition, List.filter_append, filter_pos_not,
        filter_self_filter, List.nil_append]
  · intro l
    exact (stablePartition_perm is_zero l).countP_eq is_zero
  · intro l h
    rw [stablePartition, List.filter_eq_self.mpr h,
      List.filter_eq_nil_iff.mpr (fun a ha => by simp [h a ha]), List.append_nil]
  · intro l h
    rw [stablePartition, List.filter_eq_nil_iff.mpr (fun a ha => by simp [h a ha]),
      List.filter_eq_self.mpr (fun a ha => by simp [h a ha]), List.nil_append]

/-- Concrete active segment (two bounces left). -/
def segA : PathSegment := ⟨rayS, ⟨1, 1, 1⟩, 0, 2⟩

/-- Witness for claim C8: the singleton fully-active array is unchanged
by compaction. -/
theorem C8_compaction_stable_partition_witness :
    (∀ s ∈ [segA], is_zero s = true) ∧
    stablePartition is_zero [segA] = [segA] := by
  have h : ∀ s ∈ [segA], is_zero s = true := by
    intro s hs
    rcases List.mem_singleton.mp hs with rfl
    show decide ((2:ℤ) > 0) = true
    decide
  exact ⟨h, C8_compaction_stable_partition.2.2.2.2.2.1 [segA] h⟩

end
